import Mathlib

/-!
Shallow embedding of the capture-the-flag decision engine (`src/main.mjs`)
and proofs of the specification's testable properties.

Conventions of the embedding:
* JS numbers that hold integers are modelled as `Nat`/`Int`; JS floating-point
  arithmetic on ratios (HP ratios, threat scores, thresholds such as `0.30`)
  is modelled exactly over `ℚ`.
* `getRange` is Chebyshev distance, as in the game engine.
* `Array.prototype.sort(cmp)` is modelled by a stable sort with respect to the
  total preorder `fun a b => cmp a b ≤ 0` (JS sort is stable and, for a
  consistent comparator, the stable result is unique).
* External collaborators (the path planner) are oracle parameters; imperative
  creep commands are reified into a `Cmd` list.
-/

namespace CtfBot

/-- A grid position; coordinates are integers (the arena is 100 × 100). -/
structure Pos where
  x : Int
  y : Int
deriving DecidableEq, Repr

/-- Chebyshev distance between two positions (`getRange` of the game API). -/
def chebDist (a b : Pos) : Nat :=
  max (a.x - b.x).natAbs (a.y - b.y).natAbs

/-- Terrain classes returned by `getTerrainAt`. -/
inductive Terrain where
  | plain
  | swamp
  | wall
deriving DecidableEq, Repr

/-- Body part kinds (from `game/constants`). -/
inductive PartType where
  | attack
  | rangedAttack
  | heal
  | move
  | carry
  | tough
  | work
deriving DecidableEq, Repr

/-- One body part: its kind and remaining hits. -/
structure BodyPart where
  type : PartType
  hits : Nat
deriving DecidableEq, Repr

/-- A creep as observed in a world snapshot. -/
structure Creep where
  id : Nat
  pos : Pos
  hits : Nat
  hitsMax : Nat
  fatigue : Nat
  body : List BodyPart
  /-- `store.getUsedCapacity(RESOURCE_ENERGY)` -/
  energy : Nat
  /-- `store.getFreeCapacity(RESOURCE_ENERGY)` -/
  freeCap : Nat
deriving DecidableEq, Repr

/-- A flag; `owner = some true` is mine, `some false` the enemy's,
`none` neutral (JS `my === undefined`). -/
structure Flag where
  id : Nat
  pos : Pos
  owner : Option Bool
deriving DecidableEq, Repr

/-- A tower with its energy store. -/
structure Tower where
  id : Nat
  pos : Pos
  my : Bool
  energy : Nat
  cap : Nat
deriving DecidableEq, Repr

/-- An energy container. -/
structure Container where
  id : Nat
  pos : Pos
  energy : Nat
deriving DecidableEq, Repr

/-- Role tags (the `ROLE_*` string constants). -/
inductive Role where
  | vanguard
  | ranger
  | medic
  | sentinel
  | runner
deriving DecidableEq, Repr

-- ─── Configuration constants (src/main.mjs lines 64-93) ──────────────────────

-- Named RETREAT_HP_RATIO and PULLBACK_HP_RATIO in the source.
def RETREAT_HP_LIMIT : ℚ := 3 / 10
def PULLBACK_HP_LIMIT : ℚ := 65 / 100
def ENEMY_THREAT_RADIUS : Nat := 6
def MOSQUITO_DETECT_RANGE : Nat := 12
def PHASE_EXPAND_END : Nat := 150
def TOWER_CHARGE_THRESHOLD : ℚ := 8 / 10
def TOWER_ASSIGN_RADIUS : Nat := 12
def TOWER_THREAT_WEIGHT : ℚ := 2 / 10
def BODYPART_DEVIATE_RANGE : Nat := 3

-- Constants from `game/constants`.
def ATTACK_POWER : Nat := 30
def RANGED_ATTACK_POWER : Nat := 10
def HEAL_POWER : Nat := 12
def TOWER_RANGE : Nat := 50

-- ─── Body introspection helpers (src/main.mjs lines 217-227) ─────────────────

/-- `countParts(creep, type)` -/
def countParts (c : Creep) (t : PartType) : Nat :=
  (c.body.filter (fun p => p.type = t)).length

/-- `countActive(creep, type)` -/
def countActive (c : Creep) (t : PartType) : Nat :=
  (c.body.filter (fun p => p.type = t ∧ p.hits > 0)).length

/-- `hasActive(creep, type)` -/
def hasActive (c : Creep) (t : PartType) : Bool :=
  c.body.any (fun p => p.type = t && p.hits > 0)

/-- HP ratio `creep.hits / creep.hitsMax` as an exact rational. -/
def hpRatio (c : Creep) : ℚ := (c.hits : ℚ) / (c.hitsMax : ℚ)

-- ─── Generic list helpers mirroring the game API ────────────────────────────

/-- `findInRange(pos, list, r)`: all elements within Chebyshev range `r`. -/
def findInRange (p : Pos) (l : List Creep) (r : Nat) : List Creep :=
  l.filter (fun c => chebDist p c.pos ≤ r)

/-- `findClosestByRange(pos, list)`: first element at minimal Chebyshev
range (strictly-better replaces, so earlier elements win ties). -/
def findClosestByRange (p : Pos) : List Creep → Option Creep
  | [] => none
  | c :: cs =>
      some (cs.foldl (fun best x =>
        if chebDist p x.pos < chebDist p best.pos then x else best) c)

/-- Insert `x` after every element `y` of an already-built prefix with
`le y x`; used to model JS's stable `Array.prototype.sort`. -/
def stableInsert (le : α → α → Bool) (x : α) : List α → List α
  | [] => [x]
  | y :: ys => if le y x then y :: stableInsert le x ys else x :: y :: ys

/-- Stable sort modelling `Array.prototype.sort(cmp)` with
`le a b := cmp a b ≤ 0`. -/
def jsSort (le : α → α → Bool) (l : List α) : List α :=
  l.foldl (fun acc x => stableInsert le x acc) []

/-- `Math.round` for the nonnegative values produced by centroid averaging
(JS rounds half toward +∞). -/
def jsRound (q : ℚ) : Int := ⌊q + 1 / 2⌋

-- ─── Threat assessment (src/main.mjs lines 334-380) ──────────────────────────

/-- `threatScore(enemy)` (line 334). -/
def threatScore (e : Creep) : ℚ :=
  ((countActive e .attack * ATTACK_POWER : Nat) : ℚ)
    + ((countActive e .rangedAttack * RANGED_ATTACK_POWER : Nat) : ℚ)
    + ((countActive e .heal * HEAL_POWER : Nat) : ℚ)
    + hpRatio e

/-- The comparator passed to `sort` in `selectFocusTarget` (lines 351-379).
`myMedics` and `enemies` are the globals the closure captures. -/
def focusCmp (myMedics enemies : List Creep) (a b : Creep) : ℚ :=
  let aTM := myMedics.any (fun m => decide (chebDist a.pos m.pos ≤ 4))
  let bTM := myMedics.any (fun m => decide (chebDist b.pos m.pos ≤ 4))
  if aTM ≠ bTM then (if aTM then -1 else 1) else
  let aLow := decide (a.hits ≤ 100)
  let bLow := decide (b.hits ≤ 100)
  if aLow ≠ bLow then (if aLow then -1 else 1) else
  let aUn := !(enemies.any (fun e =>
    decide (e.id ≠ a.id) && decide (countActive e .heal > 0) &&
    decide (chebDist e.pos a.pos ≤ 5)))
  let bUn := !(enemies.any (fun e =>
    decide (e.id ≠ b.id) && decide (countActive e .heal > 0) &&
    decide (chebDist e.pos b.pos ≤ 5)))
  if aUn ≠ bUn then (if aUn then -1 else 1) else
  let aH := decide (countActive a .heal > 0)
  let bH := decide (countActive b .heal > 0)
  if aH ≠ bH then (if aH then -1 else 1) else
  if hpRatio a ≠ hpRatio b then hpRatio a - hpRatio b else
  threatScore b - threatScore a

/-- `selectFocusTarget(fromPos, eligible)` (line 346). -/
def selectFocusTarget (myMedics enemies : List Creep) (fromPos : Pos)
    (eligible : List Creep) : Option Creep :=
  if eligible.length = 0 then none
  else if eligible.length = 1 then eligible.head?
  else (jsSort (fun a b => decide (focusCmp myMedics enemies a b ≤ 0)) eligible).head?

-- ─── Retreat protocol (src/main.mjs lines 607-638) ───────────────────────────

/-- `shouldRetreat(creep)` (line 607); `role` is `creepRoles.get(creep.id)` and
`myMedics` the precomputed medic list. -/
def shouldRetreat (role : Option Role) (myMedics : List Creep) (c : Creep) : Bool :=
  if (c.hits : ℚ) ≥ (c.hitsMax : ℚ) * RETREAT_HP_LIMIT then false
  else if role = some .vanguard then false
  else decide (myMedics.length > 0)

/-- `shouldPullBack(creep)` (line 626). -/
def shouldPullBack (role : Option Role) (myMedics : List Creep) (c : Creep) : Bool :=
  if shouldRetreat role myMedics c then false
  else if role = some .medic then false
  else if role = some .vanguard then false
  else if hpRatio c > PULLBACK_HP_LIMIT then false
  else !(myMedics.any (fun m => decide (chebDist c.pos m.pos ≤ 1)))

-- ─── Influence map (src/main.mjs lines 386-449) ──────────────────────────────

/-- Inputs read by `buildInfluenceMap`. -/
structure MapCtx where
  terrain : Pos → Terrain
  enemies : List Creep
  enemyTowers : List Tower
  myCreeps : List Creep

/-- The map-bounds check `nx < 0 || nx > 99 || ny < 0 || ny > 99` negated. -/
def inGrid (p : Pos) : Bool :=
  decide (0 ≤ p.x) && decide (p.x ≤ 99) && decide (0 ≤ p.y) && decide (p.y ≤ 99)

/-- Terrain base cost in the enemy-threat overlay (line 401). -/
def baseCost (ter : Pos → Terrain) (p : Pos) : Nat :=
  if ter p = .swamp then 10 else 2

/-- `Math.max(1, threatScore(enemy))` (line 391). -/
def threatFloor (e : Creep) : ℚ := max 1 (threatScore e)

/-- The capped decaying enemy-threat penalty
`Math.min(200, Math.floor(t / (dist + 1) * 0.4))` (line 400). -/
def enemyPenalty (e : Creep) (dist : Nat) : Nat :=
  (min 200 ⌊threatFloor e / ((dist : ℚ) + 1) * (4 / 10)⌋).toNat

/-- Whether the enemy-threat loop writes tile `p` for enemy `e`: the tile is
on the map, within the Chebyshev threat radius, and not a wall. -/
def enemyWrites (ter : Pos → Terrain) (e : Creep) (p : Pos) : Bool :=
  inGrid p && decide (chebDist e.pos p ≤ ENEMY_THREAT_RADIUS) && decide (ter p ≠ .wall)

/-- Effect of one enemy's inner loop on the cost matrix (lines 392-404); each
tile in the write region is set once to `min 254 (max old (base + penalty))`. -/
def enemyStep (ter : Pos → Terrain) (cm : Pos → Nat) (e : Creep) : Pos → Nat :=
  fun p =>
    if enemyWrites ter e p then
      min 254 (max (cm p) (baseCost ter p + enemyPenalty e (chebDist e.pos p)))
    else cm p

/-- The enemy-threat overlay pass (outer loop of lines 390-405). -/
def enemyPass (ter : Pos → Terrain) (es : List Creep) (cm : Pos → Nat) : Pos → Nat :=
  es.foldl (enemyStep ter) cm

/-- Falling linear tower damage estimate `Math.max(0, 1000 - 50 * (dist - 1))`
(line 419). -/
def towerDamage (dist : Nat) : Int := max 0 (1000 - 50 * ((dist : Int) - 1))

/-- Tower danger penalty `Math.min(200, Math.floor(dmg * TOWER_THREAT_WEIGHT))`
(line 420). -/
def towerPenalty (dist : Nat) : Nat :=
  (min 200 ⌊(towerDamage dist : ℚ) * TOWER_THREAT_WEIGHT⌋).toNat

/-- Whether the tower loop writes tile `p` for tower `t`. -/
def towerWrites (ter : Pos → Terrain) (t : Tower) (p : Pos) : Bool :=
  inGrid p && decide (chebDist t.pos p ≤ TOWER_RANGE) && decide (ter p ≠ .wall)

/-- Effect of one enemy tower on the cost matrix (lines 408-424); towers with
no stored energy are skipped. -/
def towerStep (ter : Pos → Terrain) (cm : Pos → Nat) (t : Tower) : Pos → Nat :=
  fun p =>
    if t.energy = 0 then cm p
    else if towerWrites ter t p then
      min 254 (max (cm p) (towerPenalty (chebDist t.pos p)))
    else cm p

/-- The enemy-tower danger pass (outer loop of lines 408-424). -/
def towerPass (ter : Pos → Terrain) (ts : List Tower) (cm : Pos → Nat) : Pos → Nat :=
  ts.foldl (towerStep ter) cm

/-- `Math.min(x, y, 99 - x, 99 - y)`, the distance to the nearest map edge. -/
def edgeDist (p : Pos) : Int := min (min p.x p.y) (min (99 - p.x) (99 - p.y))

/-- The progressive edge penalty `(WALL_REPEL_DIST - edgeDist) * 10` (line 435),
zero outside the edge band. -/
def edgeRepelPenalty (p : Pos) : Nat :=
  if edgeDist p < 8 then ((8 - edgeDist p) * 10).toNat else 0

/-- The arena-edge repulsion pass (lines 429-439): the penalty is ADDED to the
current tile value, then clamped. -/
def edgePass (ter : Pos → Terrain) (cm : Pos → Nat) : Pos → Nat :=
  fun p =>
    if inGrid p && decide (ter p ≠ .wall) && decide (edgeDist p < 8) then
      min 254 (cm p + edgeRepelPenalty p)
    else cm p

/-- One ally's stacking penalty (lines 442-445): 4 is ADDED on the ally's own
tile, then clamped. -/
def allyStep (cm : Pos → Nat) (a : Creep) : Pos → Nat :=
  fun p => if p = a.pos then min 254 (cm p + 4) else cm p

/-- The ally-stacking pass. -/
def allyPass (as : List Creep) (cm : Pos → Nat) : Pos → Nat :=
  as.foldl allyStep cm

/-- `buildInfluenceMap()` (line 386): the four overlay passes in source order,
starting from the all-zero cost matrix. -/
def buildInfluenceMap (mc : MapCtx) : Pos → Nat :=
  allyPass mc.myCreeps
    (edgePass mc.terrain
      (towerPass mc.terrain mc.enemyTowers
        (enemyPass mc.terrain mc.enemies (fun _ => 0))))

/-- Specification-side closed form of the enemy-threat overlay: the MAXIMUM of
the per-enemy contributions (`Modelled from the spec` words "take-the-max
policy per contributing source"), to be compared with the operational passes. -/
def enemyField (ter : Pos → Terrain) : List Creep → Pos → Nat
  | [], _ => 0
  | e :: es, p =>
      max (if enemyWrites ter e p then baseCost ter p + enemyPenalty e (chebDist e.pos p) else 0)
        (enemyField ter es p)

/-- Specification-side closed form of the tower-danger overlay: the MAXIMUM of
the per-tower contributions. -/
def towerField (ter : Pos → Terrain) : List Tower → Pos → Nat
  | [], _ => 0
  | t :: ts, p =>
      max (if !(t.energy = 0) && towerWrites ter t p then towerPenalty (chebDist t.pos p) else 0)
        (towerField ter ts p)

-- ─── More configuration constants ────────────────────────────────────────────

def KITE_FLEE_RANGE : Nat := 3
def EMERGENCY_FLEE_RANGE : Nat := 10

-- ─── Reified creep commands ──────────────────────────────────────────────────

/-- Cost profiles passed to `moveTo`/`searchPath`: `pathOpts()` (influence
matrix), `aggressivePathOpts()` (terrain only), or no options (engine
default). -/
inductive PathProfile where
  | influence
  | aggressive
  | engineDefault
deriving DecidableEq, Repr

/-- An imperative per-creep command issued to the game engine. -/
inductive Cmd where
  | move (dx dy : Int)
  | moveTo (dest : Pos) (opts : PathProfile)
  | attack (targetId : Nat)
  | rangedAttack (targetId : Nat)
  | rangedMassAttack
  | heal (targetId : Nat)
  | rangedHeal (targetId : Nat)
  | withdrawEnergy (containerId : Nat)
  | transferEnergy (towerId : Nat)
deriving DecidableEq, Repr

/-- Action tags returned by the combat resolver / recorded by `recordAction`. -/
inductive Act where
  | move
  | attack
  | heal
  | harvest
deriving DecidableEq, Repr

/-- Charger FSM states (`'WITHDRAW' | 'DELIVER'`). -/
inductive CState where
  | withdraw
  | deliver
deriving DecidableEq, Repr

-- ─── Generic closest-by-range (for containers, tiles, …) ─────────────────────

/-- `findClosestByRange` over any element type, given a position projection. -/
def findClosestBy (p : Pos) (posOf : α → Pos) : List α → Option α
  | [] => none
  | c :: cs =>
      some (cs.foldl (fun best x =>
        if chebDist p (posOf x) < chebDist p (posOf best) then x else best) c)

/-- The element with the least `hits` (`reduce((b, c) => c.hits < b.hits ? c : b)`,
earlier elements win ties). -/
def minByHits : List Creep → Option Creep
  | [] => none
  | c :: cs => some (cs.foldl (fun b x => if x.hits < b.hits then x else b) c)

/-- The element with the least HP ratio (`reduce` with strict `<`, earlier
elements win ties). -/
def minByRatio : List Creep → Option Creep
  | [] => none
  | c :: cs => some (cs.foldl (fun b x => if hpRatio x < hpRatio b then x else b) c)

-- ─── Role classification (src/main.mjs lines 233-275) ────────────────────────

/-- `classifyCreep(creep)` (line 233). -/
def classifyCreep (c : Creep) : Role :=
  let a := countParts c .attack
  let r := countParts c .rangedAttack
  let h := countParts c .heal
  if h > 0 ∧ h ≥ a ∧ h ≥ r then .medic
  else if r > 0 ∧ r ≥ a then .ranger
  else if a > 0 then .vanguard
  else if h > 0 then .medic
  else if r > 0 then .ranger
  else .vanguard

/-- `assignRoles()` (line 255): classify every creep, then redesignate the
(up to) 2 fastest vanguards as flag runners. -/
def assignRoles (myCreeps : List Creep) : Nat → Option Role :=
  let base : Nat → Option Role :=
    myCreeps.foldl (fun m c => Function.update m c.id (some (classifyCreep c))) (fun _ => none)
  let vanguardList :=
    jsSort (fun a b => decide (((countParts b .move : Int) - (countParts a .move : Int)) ≤ 0))
      (myCreeps.filter (fun c => decide (base c.id = some .vanguard)))
  let numRunners := min 2 vanguardList.length
  (vanguardList.take numRunners).foldl
    (fun m c => Function.update m c.id (some .runner)) base

-- ─── The per-tick world context ──────────────────────────────────────────────

/-- Charger assignment tables: association lists keyed by id, mirroring the
JS `Map`s. -/
abbrev ChargerMap := List (Nat × Nat)

/-- `chargerToTower.has(id)` / `towerChargeAssigned.has(id)`. -/
def ctHas (m : ChargerMap) (id : Nat) : Bool := (m.lookup id).isSome

/-- `Map.delete(k)`. -/
def eraseKey (m : ChargerMap) (k : Nat) : ChargerMap :=
  m.filter (fun e => !(decide (e.1 = k)))

/-- `Map.set(k, v)` (replaces an existing key in place, else appends). -/
def setKey (m : ChargerMap) (k v : Nat) : ChargerMap :=
  if (m.lookup k).isSome then m.map (fun e => if e.1 = k then (k, v) else e)
  else m ++ [(k, v)]

/-- The world snapshot plus persistent state read by the tick-layer functions.
The path planner and the floating-point formation-point computation
(`getFormationPoint`, which uses `Math.sqrt`) are oracle parameters. -/
structure Ctx where
  tick : Nat
  terrain : Pos → Terrain
  myCreeps : List Creep
  enemies : List Creep
  allFlags : List Flag
  allTowers : List Tower
  myTowers : List Tower
  containers : List Container
  bodyParts : List Pos
  roles : Nat → Option Role
  ctt : ChargerMap
  cstate : Nat → Option CState
  focus : Option Creep
  currentTank : Option Nat
  targets : Nat → Option Pos
  searchPath : Pos → List (Pos × Nat) → Bool → List Pos
  formationPoint : Creep → Option Pos

/-- Precomputed vanguard list (`precomputeRoleLists`, line 522). -/
def Ctx.myVanguards (ctx : Ctx) : List Creep :=
  ctx.myCreeps.filter (fun c => decide (ctx.roles c.id = some .vanguard))

/-- Precomputed ranger list. -/
def Ctx.myRangers (ctx : Ctx) : List Creep :=
  ctx.myCreeps.filter (fun c => decide (ctx.roles c.id = some .ranger))

/-- Precomputed medic list. -/
def Ctx.myMedics (ctx : Ctx) : List Creep :=
  ctx.myCreeps.filter (fun c => decide (ctx.roles c.id = some .medic))

/-- Precomputed runner list. -/
def Ctx.myRunners (ctx : Ctx) : List Creep :=
  ctx.myCreeps.filter (fun c => decide (ctx.roles c.id = some .runner))

/-- `myFlag` (line 187): first flag with `my === true`, else null. -/
def Ctx.myFlag (ctx : Ctx) : Option Flag :=
  ctx.allFlags.find? (fun f => decide (f.owner = some true))

/-- `neutralFlags` (line 189): flags with `my === undefined`. -/
def Ctx.neutralFlags (ctx : Ctx) : List Flag :=
  ctx.allFlags.filter (fun f => decide (f.owner = none))

/-- `enemyFlags` (line 188): flags with `my === false`. -/
def Ctx.enemyFlags (ctx : Ctx) : List Flag :=
  ctx.allFlags.filter (fun f => decide (f.owner = some false))

-- ─── Micro movement helpers (src/main.mjs lines 486-519) ─────────────────────

/-- `moveToward(creep, target)` (line 486). -/
def moveToward (ter : Pos → Terrain) (c : Creep) (target : Pos) : List Cmd :=
  let dx := Int.sign (target.x - c.pos.x)
  let dy := Int.sign (target.y - c.pos.y)
  if dx = 0 ∧ dy = 0 then []
  else
    let n : Pos := ⟨c.pos.x + dx, c.pos.y + dy⟩
    if inGrid n ∧ ter n ≠ .wall then [.move dx dy]
    else [.moveTo target .engineDefault]

/-- `moveAway(creep, threat)` (line 501). -/
def moveAway (ctx : Ctx) (c : Creep) (threat : Pos) : List Cmd :=
  let dx := Int.sign (c.pos.x - threat.x)
  let dy := Int.sign (c.pos.y - threat.y)
  let fdx := if dx = 0 ∧ dy = 0 then 1 else dx
  let fdy := if dx = 0 ∧ dy = 0 then 0 else dy
  let n : Pos := ⟨c.pos.x + fdx, c.pos.y + fdy⟩
  if inGrid n ∧ ctx.terrain n ≠ .wall then [.move fdx fdy]
  else
    match ctx.searchPath c.pos [(threat, KITE_FLEE_RANGE)] true with
    | [] => []
    | p :: _ => [.move (p.x - c.pos.x) (p.y - c.pos.y)]

-- ─── Mass-vs-focused ranged decision (src/main.mjs lines 557-587) ────────────

/-- `bestRangedAction(creep, focusTarget)` (line 557): the list of issued
commands together with the returned action tag. -/
def bestRangedAction (enemies : List Creep) (c : Creep) (focusTarget : Option Creep) :
    List Cmd × Option Act :=
  let inR1 := findInRange c.pos enemies 1
  let inR3 := findInRange c.pos enemies 3
  if inR3.length = 0 then ([], none)
  else if inR1.length ≥ 2 then ([.rangedMassAttack], some .attack)
  else
    let N := countActive c .rangedAttack
    if N = 0 then ([], none)
    else
      let inR2 := findInRange c.pos enemies 2
      let massTotal : Int :=
        (inR1.length : Int) * 10 * N
          + ((inR2.length : Int) - (inR1.length : Int)) * 4 * N
          + ((inR3.length : Int) - (inR2.length : Int)) * 1 * N
      let focusedTotal : Int := 10 * N
      if (massTotal : ℚ) > (focusedTotal : ℚ) * (15 / 10) then
        ([.rangedMassAttack], some .attack)
      else
        let fallback : Option Creep :=
          if inR3.length = 1 then inR3.head? else minByHits inR3
        let t : Option Creep :=
          match focusTarget with
          | some ft => if inR3.any (fun e => decide (e.id = ft.id)) then some ft else fallback
          | none => fallback
        match t with
        | some tgt => ([.rangedAttack tgt.id], some .attack)
        | none => ([], none)

-- ─── Squad geometry (src/main.mjs lines 761-887) ─────────────────────────────

/-- `squadCentroid()` (line 761): rounded mean position of vanguards and
rangers. -/
def squadCentroid (vgs rgs : List Creep) : Option Pos :=
  let squad := vgs ++ rgs
  if squad.length = 0 then none
  else
    some ⟨jsRound (((squad.foldl (fun s c => s + c.pos.x) 0 : Int) : ℚ) / (squad.length : ℚ)),
          jsRound (((squad.foldl (fun s c => s + c.pos.y) 0 : Int) : ℚ) / (squad.length : ℚ))⟩

/-- `isMosquitoSituation(creep)` (line 778). -/
def isMosquitoSituation (ctx : Ctx) (c : Creep) : Bool :=
  let localAllies := (findInRange c.pos ctx.myCreeps MOSQUITO_DETECT_RANGE).length
  let localEnemies := (findInRange c.pos ctx.enemies MOSQUITO_DETECT_RANGE).length
  if localEnemies < 3 then false
  else if (localAllies : ℚ) ≥ (ctx.myCreeps.length : ℚ) * (5 / 10) then false
  else if (ctx.myCreeps.length : ℚ) ≥ (ctx.enemies.length : ℚ) * (15 / 10) then false
  else if (findInRange c.pos ctx.myVanguards 4).length ≥ 2 then false
  else decide ((localEnemies : ℚ) > (localAllies : ℚ) * (15 / 10))

/-- The comparator in `designateTank` (lines 828-833): HP ratio descending,
then body length descending. -/
def tankCmp (a b : Creep) : ℚ :=
  if hpRatio a ≠ hpRatio b then hpRatio b - hpRatio a
  else ((b.body.length : ℚ) - (a.body.length : ℚ))

/-- The keep-incumbent test of `designateTank` (lines 823-826): the incumbent
is found among the eligible vanguards and is above the 40% health floor. -/
def tankKeep (pool : List Creep) (currentTank : Option Nat) : Bool :=
  match currentTank with
  | some tid =>
      match pool.find? (fun c => decide (c.id = tid)) with
      | some ct => decide ((ct.hits : ℚ) > (ct.hitsMax : ℚ) * (40 / 100))
      | none => false
  | none => false

/-- `designateTank()` (line 816). -/
def designateTank (ctt : ChargerMap) (myVanguards : List Creep)
    (currentTank : Option Nat) : Option Nat :=
  let vanguards := myVanguards.filter (fun c => !(ctHas ctt c.id))
  if vanguards.length = 0 then none
  else if tankKeep vanguards currentTank then currentTank
  else
    match jsSort (fun a b => decide (tankCmp a b ≤ 0)) vanguards with
    | [] => none
    | v :: _ => some v.id

/-- `findEnemyCentroid()` (line 870): centroid of the largest enemy cluster. -/
def findEnemyCentroid (enemies : List Creep) : Option Pos :=
  match enemies with
  | [] => none
  | e0 :: _ =>
      let best := enemies.foldl (fun (b : Creep × Nat) e =>
        let count := (findInRange e.pos enemies 10).length
        if count > b.2 then (e, count) else b) (e0, 0)
      let cluster := findInRange best.1.pos enemies 10
      some ⟨jsRound (((cluster.foldl (fun s c => s + c.pos.x) 0 : Int) : ℚ) / (cluster.length : ℚ)),
            jsRound (((cluster.foldl (fun s c => s + c.pos.y) 0 : Int) : ℚ) / (cluster.length : ℚ))⟩

-- ─── Commander layer (src/main.mjs lines 649-738, 894-920) ───────────────────

/-- Per-creep movement-target table (`creepTargets`; targets are stored
positions). -/
abbrev Targets := Nat → Option Pos

/-- The comparator `(a, b) => getRange(runner, a) - getRange(runner, b)`
(line 915). -/
def runnerFlagCmp (r : Creep) (a b : Flag) : Int :=
  (chebDist r.pos a.pos : Int) - (chebDist r.pos b.pos : Int)

/-- `assignRunnerTargets(runners)` (line 894): distribute runners across
uncaptured flags, preferring undefended ones and distinct flags. -/
def assignRunnerTargets (ctx : Ctx) (runners : List Creep) (tg : Targets) : Targets :=
  if runners.length = 0 then tg
  else
    let uncaptured := ctx.neutralFlags ++ ctx.enemyFlags
    if uncaptured.length = 0 then
      let myOwnedFlags := ctx.allFlags.filter (fun f => decide (f.owner = some true))
      runners.enum.foldl (fun (t : Targets) (p : Nat × Creep) =>
        let flag : Option Flag :=
          (myOwnedFlags.get? (p.1 % max 1 myOwnedFlags.length)).orElse (fun _ => ctx.myFlag)
        match flag with
        | some f => Function.update t p.2.id (some f.pos)
        | none => t) tg
    else
      let undefended := uncaptured.filter (fun f =>
        decide ((findInRange f.pos ctx.enemies 8).length = 0))
      let pool := if undefended.length > 0 then undefended else uncaptured
      (runners.foldl (fun (st : Targets × List Nat) r =>
        let sorted := jsSort (fun a b => decide (runnerFlagCmp r a b ≤ 0)) pool
        match sorted with
        | [] => st
        | f0 :: _ =>
            let target := (sorted.find? (fun f => !(st.2.contains f.id))).getD f0
            (Function.update st.1 r.id (some target.pos), st.2 ++ [target.id]))
        (tg, [])).1

/-- Result of one `commandLayer()` run: the rewritten target table plus the
recomputed tank and focus singletons. -/
structure CmdOut where
  targets : Targets
  tank : Option Nat
  focus : Option Creep

/-- Nearest flag to `from` by `reduce` (`getRange(centroid, f) <
getRange(centroid, best) ? f : best`; the first flag seeds, earlier flags win
ties). -/
def nearestFlagTo (p : Pos) (f0 : Flag) (rest : List Flag) : Flag :=
  rest.foldl (fun best f => if chebDist p f.pos < chebDist p best.pos then f else best) f0

/-- The main army (line 668): every creep that is not a Runner and not a
bound charger. -/
def mainArmyOf (ctx : Ctx) : List Creep :=
  ctx.myCreeps.filter (fun c =>
    !(decide (ctx.roles c.id = some .runner)) && !(ctHas ctx.ctt c.id))

/-- The squad centroid with the `{x: 50, y: 50}` fallback (line 650). -/
def centroidOf (ctx : Ctx) : Pos :=
  (squadCentroid ctx.myVanguards ctx.myRangers).getD ⟨50, 50⟩

/-- One iteration of the flag-defense interceptor loop (lines 709-724). -/
def interceptStep (ctx : Ctx) (mainArmy : List Creep) (t : Targets) (flag : Flag) : Targets :=
  let threatsNearFlag := findInRange flag.pos ctx.enemies 10
  if threatsNearFlag.length = 0 then t
  else
    let defendersNear := (findInRange flag.pos ctx.myCreeps 5).filter
      (fun c => !(ctHas ctx.ctt c.id))
    if defendersNear.length > 0 then t
    else
      let interceptors := mainArmy.filter (fun c =>
        decide (ctx.roles c.id = some .vanguard) || decide (ctx.roles c.id = some .ranger))
      if interceptors.length = 0 then t
      else
        match findClosestByRange flag.pos interceptors with
        | some closest => Function.update t closest.id (some flag.pos)
        | none => t

/-- One iteration of the straggler-consolidation loop (lines 727-737). -/
def stragglerStep (ctx : Ctx) (centroid : Pos) (t : Targets) (c : Creep) : Targets :=
  if chebDist c.pos centroid > 15 then
    if (findInRange c.pos ctx.enemies MOSQUITO_DETECT_RANGE).length ≥ 3 then
      Function.update t c.id (some centroid)
    else t
  else t

/-- `commandLayer()` (line 649): focus selection, tank designation, phase-1
flag rush or main-army convergence, runner targets, flag-defense interception
and straggler consolidation, in source order. -/
def commandLayer (ctx : Ctx) (tg0 : Targets) : CmdOut :=
  let vgs := ctx.myVanguards
  let rgs := ctx.myRangers
  let centroid := centroidOf ctx
  let engageable := ctx.enemies.filter (fun e =>
    (vgs.any (fun v => decide (chebDist v.pos e.pos ≤ 6))) ||
    (rgs.any (fun r => decide (chebDist r.pos e.pos ≤ 6))))
  let focus :=
    if engageable.length > 0 then selectFocusTarget ctx.myMedics ctx.enemies centroid engageable
    else if ctx.enemies.length > 0 then selectFocusTarget ctx.myMedics ctx.enemies centroid ctx.enemies
    else none
  let tank := designateTank ctx.ctt vgs ctx.currentTank
  let uncaptured := ctx.neutralFlags ++ ctx.enemyFlags
  let runners := ctx.myRunners.filter (fun c => !(ctHas ctx.ctt c.id))
  let mainArmy := mainArmyOf ctx
  if ctx.tick ≤ PHASE_EXPAND_END ∧ ctx.neutralFlags.length > 0 then
    let tg1 := assignRunnerTargets ctx runners tg0
    match ctx.neutralFlags with
    | [] => ⟨tg1, tank, focus⟩
    | f0 :: rest =>
        let nearestNeutral := nearestFlagTo centroid f0 rest
        let tg2 := mainArmy.foldl
          (fun (t : Targets) c => Function.update t c.id (some nearestNeutral.pos)) tg1
        ⟨tg2, tank, focus⟩
  else
    let tg1 := assignRunnerTargets ctx runners tg0
    let fallbackAssign : Targets :=
      let obj : Option Flag :=
        match uncaptured with
        | [] => ctx.myFlag
        | f0 :: rest => some (nearestFlagTo centroid f0 rest)
      mainArmy.foldl
        (fun (t : Targets) c => Function.update t c.id
          (((obj).orElse (fun _ => ctx.myFlag)).map (fun f => f.pos))) tg1
    let tg2 :=
      match findEnemyCentroid ctx.enemies with
      | some ec =>
          if ctx.enemies.length > 0 then
            mainArmy.foldl (fun (t : Targets) c => Function.update t c.id (some ec)) tg1
          else fallbackAssign
      | none => fallbackAssign
    let myOwnedFlags := ctx.allFlags.filter (fun f => decide (f.owner = some true))
    let tg3 := myOwnedFlags.foldl (interceptStep ctx mainArmy) tg2
    let tg4 := mainArmy.foldl (stragglerStep ctx centroid) tg3
    ⟨tg4, tank, focus⟩

-- ─── Charger assignment tables (src/main.mjs lines 96-98, 169-183, 929-983) ──

/-- The two persistent charger tables `towerChargeAssigned`
(tower → charger) and `chargerToTower` (charger → tower). -/
structure ChargerTables where
  tca : ChargerMap
  ctt : ChargerMap
deriving DecidableEq, Repr

/-- The per-dead-creep table cleanup in `refreshWorldState` (lines 178-181):
`tid = chargerToTower.get(id); if (tid) towerChargeAssigned.delete(tid);
chargerToTower.delete(id)`. -/
def deathStep (t : ChargerTables) (id : Nat) : ChargerTables :=
  let tca :=
    match t.ctt.lookup id with
    | some tid => eraseKey t.tca tid
    | none => t.tca
  ⟨tca, eraseKey t.ctt id⟩

/-- The death-detection cleanup of `refreshWorldState` (lines 169-183):
every creep id present last tick but absent now is scrubbed from the charger
tables. -/
def deathCleanup (prevIds aliveIds : List Nat) (t : ChargerTables) : ChargerTables :=
  (prevIds.filter (fun id => !(aliveIds.contains id))).foldl deathStep t

/-- `(used / cap) >= TOWER_CHARGE_THRESHOLD` guarded by `cap > 0`
(release pass, line 948). -/
def towerCharged (tw : Tower) : Bool :=
  decide (tw.cap > 0) && decide ((tw.energy : ℚ) / (tw.cap : ℚ) ≥ TOWER_CHARGE_THRESHOLD)

/-- Whether a `towerChargeAssigned` entry `(towerId, chargerId)` survives the
release loop of `assignTowerChargers` (lines 931-954): the charger is still
alive, the tower still resolves, and the tower is not sufficiently charged. -/
def releaseKeep (myCreeps : List Creep) (allTowers : List Tower) (e : Nat × Nat) : Bool :=
  (myCreeps.any (fun c => decide (c.id = e.2))) &&
    (match allTowers.find? (fun tw => decide (tw.id = e.1)) with
     | none => false
     | some tw => !(towerCharged tw))

/-- The release loop of `assignTowerChargers` (lines 931-954); each removed
`towerChargeAssigned` entry also deletes its charger's `chargerToTower`
entry. The loop iterates a snapshot of the entries and each entry's fate
depends only on the world, so it is a filter. -/
def releasePass (myCreeps : List Creep) (allTowers : List Tower)
    (t : ChargerTables) : ChargerTables :=
  let removed := t.tca.filter (fun e => !(releaseKeep myCreeps allTowers e))
  ⟨t.tca.filter (releaseKeep myCreeps allTowers),
   t.ctt.filter (fun e => !(removed.any (fun r => decide (r.2 = e.1))))⟩

/-- The `continue` guard of the assignment loop (line 961):
`cap === 0 || (used / cap) >= TOWER_CHARGE_THRESHOLD`. -/
def towerNotHungry (tw : Tower) : Bool :=
  decide (tw.cap = 0) || decide ((tw.energy : ℚ) / (tw.cap : ℚ) ≥ TOWER_CHARGE_THRESHOLD)

/-- One iteration of the assignment loop of `assignTowerChargers`
(lines 957-982). -/
def assignStep (myCreeps : List Creep) (containers : List Container)
    (t : ChargerTables) (tw : Tower) : ChargerTables :=
  if (t.tca.lookup tw.id).isSome then t
  else if towerNotHungry tw then t
  else if (containers.filter (fun c => decide (c.energy > 0))).length = 0 then t
  else
    let candidates := myCreeps.filter (fun c =>
      !((t.ctt.lookup c.id).isSome) && hasActive c .carry &&
        decide (chebDist c.pos tw.pos ≤ TOWER_ASSIGN_RADIUS))
    match findClosestByRange tw.pos candidates with
    | none => t
    | some chosen => ⟨setKey t.tca tw.id chosen.id, setKey t.ctt chosen.id tw.id⟩

/-- `assignTowerChargers()` (line 929): release stale bindings, then bind one
free CARRY creep per still-hungry tower. -/
def assignTowerChargers (myCreeps : List Creep) (allTowers myTowers : List Tower)
    (containers : List Container) (t : ChargerTables) : ChargerTables :=
  myTowers.foldl (assignStep myCreeps containers) (releasePass myCreeps allTowers t)

-- ─── Charger behavior (src/main.mjs lines 990-1061) ──────────────────────────

/-- `behaviorCharger(creep)` (line 990): the movement/transfer commands of a
bound charger. The charger FSM state update is internal to the tick; only the
issued commands are reified. -/
def behaviorCharger (ctx : Ctx) (c : Creep) : List Cmd :=
  match ctx.ctt.lookup c.id with
  | none => []
  | some towerId =>
      match ctx.allTowers.find? (fun tw => decide (tw.id = towerId)) with
      | none => []
      | some tower =>
          let energy := c.energy
          let free := c.freeCap
          let state0 := (ctx.cstate c.id).getD .withdraw
          let state1 := if state0 = .withdraw ∧ free ≤ 0 then CState.deliver else state0
          let state2 := if state1 = .deliver ∧ energy ≤ 0 then CState.withdraw else state1
          let energyContainers := ctx.containers.filter (fun co => decide (co.energy > 0))
          let src :=
            if energyContainers.length > 0 then
              findClosestBy tower.pos (fun co => co.pos) energyContainers
            else none
          if state2 = .withdraw then
            match src with
            | none =>
                if energy > 0 then
                  if chebDist c.pos tower.pos ≤ 1 then [.transferEnergy tower.id]
                  else [.moveTo tower.pos .engineDefault]
                else
                  let bp :=
                    if ctx.bodyParts.length > 0 then findClosestBy c.pos id ctx.bodyParts
                    else none
                  match bp with
                  | some b =>
                      if chebDist c.pos b ≤ 6 then [.moveTo b .engineDefault]
                      else if chebDist c.pos tower.pos > 2 then [.moveTo tower.pos .engineDefault]
                      else []
                  | none =>
                      if chebDist c.pos tower.pos > 2 then [.moveTo tower.pos .engineDefault]
                      else []
            | some srcC =>
                if chebDist c.pos srcC.pos ≤ 1 then [.withdrawEnergy srcC.id]
                else [.moveTo srcC.pos .engineDefault]
          else
            if chebDist c.pos tower.pos ≤ 1 then
              let bp :=
                if ctx.bodyParts.length > 0 then findClosestBy c.pos id ctx.bodyParts
                else none
              match bp with
              | some b =>
                  if chebDist c.pos b ≤ 4 then [.transferEnergy tower.id, .moveTo b .engineDefault]
                  else [.transferEnergy tower.id]
              | none => [.transferEnergy tower.id]
            else [.moveTo tower.pos .engineDefault]

-- ─── Combat action resolver (src/main.mjs lines 1072-1156) ───────────────────

/-- `doCombatAction(creep)` (line 1072): the attack/heal commands issued this
tick and the returned action tag. Never issues movement. -/
def doCombatAction (ctx : Ctx) (c : Creep) : List Cmd × Option Act :=
  let role := ctx.roles c.id
  if shouldRetreat role ctx.myMedics c then
    if hasActive c .heal then ([.heal c.id], some .heal)
    else if hasActive c .rangedAttack then bestRangedAction ctx.enemies c ctx.focus
    else ([], none)
  else if role = some .runner then
    if hasActive c .heal ∧ c.hits < c.hitsMax then ([.heal c.id], some .heal)
    else if hasActive c .rangedAttack then bestRangedAction ctx.enemies c ctx.focus
    else if hasActive c .attack then
      match findInRange c.pos ctx.enemies 1 with
      | [] => ([], none)
      | e :: _ => ([.attack e.id], some .attack)
    else ([], none)
  else if role = some .medic then
    if hasActive c .heal then
      let damaged := ctx.myCreeps.filter (fun x =>
        decide (x.hits < x.hitsMax) && decide (x.id ≠ c.id))
      let adjDmg := findInRange c.pos damaged 1
      let nearDmg := findInRange c.pos damaged 3
      let restHeal : List Cmd × Option Act :=
        match minByRatio adjDmg with
        | some t => ([.heal t.id], some .heal)
        | none =>
            match minByRatio nearDmg with
            | some t => ([.rangedHeal t.id], some .heal)
            | none =>
                if c.hits < c.hitsMax then ([.heal c.id], some .heal) else ([], none)
      let tank : Option Creep :=
        match ctx.currentTank with
        | some tid => damaged.find? (fun x => decide (x.id = tid))
        | none => none
      match tank with
      | some tk =>
          if hpRatio tk < 7 / 10 then
            let tankDist := chebDist c.pos tk.pos
            if tankDist ≤ 1 then ([.heal tk.id], some .heal)
            else if tankDist ≤ 3 then ([.rangedHeal tk.id], some .heal)
            else restHeal
          else restHeal
      | none => restHeal
    else ([], none)
  else
    let meleeRes : Option (List Cmd × Option Act) :=
      if hasActive c .attack then
        let adj := findInRange c.pos ctx.enemies 1
        if adj.length > 0 then
          let t : Option Creep :=
            match ctx.focus with
            | some f => if adj.any (fun e => decide (e.id = f.id)) then some f else minByHits adj
            | none => minByHits adj
          match t with
          | some tgt => some ([.attack tgt.id], some .attack)
          | none => none
        else none
      else none
    match meleeRes with
    | some r => r
    | none =>
        let ra :=
          if hasActive c .rangedAttack then bestRangedAction ctx.enemies c ctx.focus
          else ([], none)
        if ra.2.isSome then ra
        else if hasActive c .heal then
          let adjDmg := findInRange c.pos
            (ctx.myCreeps.filter (fun x => decide (x.hits < x.hitsMax))) 1
          match minByHits adjDmg with
          | some t => ([.heal t.id], some .heal)
          | none => if c.hits < c.hitsMax then ([.heal c.id], some .heal) else ([], none)
        else ([], none)

-- ─── Movement resolver (src/main.mjs lines 1168-1504) ────────────────────────

/-- P0 emergency retreat movement (lines 1177-1197). -/
def retreatMove (ctx : Ctx) (c : Creep) : List Cmd :=
  let nearby := findInRange c.pos ctx.enemies 8
  let viaFlee : Option Cmd :=
    if nearby.length > 0 then
      match ctx.searchPath c.pos (nearby.map (fun e => (e.pos, EMERGENCY_FLEE_RANGE))) true with
      | [] => none
      | p :: _ => some (.move (p.x - c.pos.x) (p.y - c.pos.y))
    else none
  match viaFlee with
  | some cmd => [cmd]
  | none =>
      match findClosestByRange c.pos ctx.myMedics with
      | some nearest => [.moveTo nearest.pos .influence]
      | none =>
          match ctx.myFlag with
          | some f => [.moveTo f.pos .influence]
          | none => []

/-- Runner movement (lines 1200-1212). -/
def runnerMove (ctx : Ctx) (c : Creep) (objective : Option Pos) : List Cmd :=
  if ctx.bodyParts.any (fun b => decide (b = c.pos)) then []
  else
    match objective with
    | some obj =>
        let nearEn := findInRange c.pos ctx.enemies 6
        [.moveTo obj (if nearEn.length > 0 then .influence else .aggressive)]
    | none =>
        if ctx.bodyParts.length > 0 then
          match findClosestBy c.pos id ctx.bodyParts with
          | some bp => if chebDist c.pos bp ≤ 8 then [.moveTo bp .engineDefault] else []
          | none => []
        else []

/-- P1.5 mosquito kite-back (lines 1242-1264); `none` means fall through. -/
def mosquitoMove (ctx : Ctx) (c : Creep) : Option (List Cmd) :=
  let farAllies := ctx.myCreeps.filter (fun x =>
    decide (x.id ≠ c.id) && decide (chebDist c.pos x.pos > MOSQUITO_DETECT_RANGE))
  let safePoint : Option Pos :=
    if farAllies.length ≥ 1 then
      some ⟨jsRound (((farAllies.foldl (fun s x => s + x.pos.x) 0 : Int) : ℚ) / (farAllies.length : ℚ)),
            jsRound (((farAllies.foldl (fun s x => s + x.pos.y) 0 : Int) : ℚ) / (farAllies.length : ℚ))⟩
    else
      match ctx.myTowers.find? (fun t => decide (t.energy > 0)) with
      | some t => some t.pos
      | none => ctx.myFlag.map (fun f => f.pos)
  safePoint.map (fun sp => [.moveTo sp .influence])

/-- Vanguard movement rules (lines 1275-1312); `none` means fall through. -/
def vanguardMove (ctx : Ctx) (c : Creep) (objective : Option Pos) : Option (List Cmd) :=
  let inR1 := findInRange c.pos ctx.enemies 1
  if inR1.length > 0 then
    let target : Option Creep :=
      match ctx.focus with
      | some f => if inR1.any (fun e => decide (e.id = f.id)) then some f else findClosestByRange c.pos inR1
      | none => findClosestByRange c.pos inR1
    some (match target with
          | some t => moveToward ctx.terrain c t.pos
          | none => [])
  else
    let nearEn := findInRange c.pos ctx.enemies 8
    let charged : Option (List Cmd) :=
      if nearEn.length > 0 then
        let target : Option Creep :=
          match ctx.focus with
          | some f => if nearEn.any (fun e => decide (e.id = f.id)) then some f else findClosestByRange c.pos nearEn
          | none => findClosestByRange c.pos nearEn
        target.map (fun t =>
          if chebDist c.pos t.pos ≤ 2 then moveToward ctx.terrain c t.pos
          else [.moveTo t.pos .aggressive])
      else none
    match charged with
    | some r => some r
    | none => objective.map (fun obj => [.moveTo obj .aggressive])

/-- Ranger movement rules (lines 1314-1356); `none` means fall through. -/
def rangerMove (ctx : Ctx) (c : Creep) : Option (List Cmd) :=
  let inR1 := findInRange c.pos ctx.enemies 1
  let inR2 := findInRange c.pos ctx.enemies 2
  let inR3 := findInRange c.pos ctx.enemies 3
  let inR6 := findInRange c.pos ctx.enemies 6
  if inR1.length > 0 then
    some ((findClosestByRange c.pos inR1).elim [] (fun th => moveAway ctx c th.pos))
  else if inR2.length > 0 then some []
  else if inR3.length > 0 then some []
  else if inR6.length > 0 then
    let nearestVan :=
      if ctx.myVanguards.length > 0 then findClosestByRange c.pos ctx.myVanguards else none
    let t : Option Creep :=
      match ctx.focus with
      | some f => if inR6.any (fun e => decide (e.id = f.id)) then some f else findClosestByRange c.pos inR6
      | none => findClosestByRange c.pos inR6
    t.map (fun tt =>
      match nearestVan with
      | some nv =>
          if chebDist c.pos tt.pos > chebDist nv.pos tt.pos then [.moveTo tt.pos .aggressive]
          else if chebDist c.pos nv.pos ≤ 2 then moveToward ctx.terrain c nv.pos
          else [.moveTo nv.pos .aggressive]
      | none => [.moveTo tt.pos .aggressive])
  else none

/-- The medic leash check of M3/P4 (lines 1429-1441): hold near the follow
target when no vanguard is strictly closer to the medic's nearest enemy;
`none` means continue. -/
def medicLeash (ctx : Ctx) (c : Creep) (followTarget : Creep) : Option (List Cmd) :=
  if ctx.enemies.length > 0 ∧ ctx.myVanguards.length > 0 then
    match findClosestByRange c.pos ctx.enemies with
    | some nearestEn =>
        let myDist := chebDist c.pos nearestEn.pos
        if !(ctx.myVanguards.any (fun v => decide (chebDist v.pos nearestEn.pos < myDist))) then
          some (if chebDist c.pos followTarget.pos > 1 then moveToward ctx.terrain c followTarget.pos else [])
        else none
    | none => none
  else none

/-- Medic movement rules (lines 1358-1464); `none` means fall through to P4. -/
def medicMove (ctx : Ctx) (c : Creep) : Option (List Cmd) :=
  let nearEn := findInRange c.pos ctx.enemies 2
  let protect : Option (List Cmd) :=
    if nearEn.length > 0 ∧ ctx.myVanguards.length > 0 then
      let meleeThreats := nearEn.filter (fun e =>
        hasActive e .attack &&
          !(ctx.myVanguards.any (fun v => decide (chebDist v.pos e.pos < chebDist c.pos e.pos))))
      if meleeThreats.length > 0 then
        some ((findClosestByRange c.pos meleeThreats).elim [] (fun th => moveAway ctx c th.pos))
      else none
    else none
  match protect with
  | some r => some r
  | none =>
      let allies := ctx.myCreeps.filter (fun x => decide (x.id ≠ c.id))
      let critical := allies.filter (fun x => decide ((x.hits : ℚ) < (x.hitsMax : ℚ) * (50 / 100)))
      if critical.length > 0 then
        some ((minByRatio critical).elim [] (fun worst =>
          if chebDist c.pos worst.pos > 1 then [.moveTo worst.pos .aggressive] else []))
      else
        let dmgInR1 := allies.filter (fun x =>
          decide ((x.hits : ℚ) < (x.hitsMax : ℚ) * (90 / 100)) && decide (chebDist c.pos x.pos ≤ 1))
        if dmgInR1.length > 0 then some []
        else
          let dmgInR3 := allies.filter (fun x =>
            decide ((x.hits : ℚ) < (x.hitsMax : ℚ) * (90 / 100)) &&
              decide (chebDist c.pos x.pos ≤ 3) && decide (chebDist c.pos x.pos > 1))
          if dmgInR3.length > 0 then
            some ((minByRatio dmgInR3).elim [] (fun worst => moveToward ctx.terrain c worst.pos))
          else
            let damaged := allies.filter (fun x =>
              decide ((x.hits : ℚ) < (x.hitsMax : ℚ) * (90 / 100)))
            if damaged.length > 0 then
              some ((minByRatio damaged).elim [] (fun worst => [.moveTo worst.pos .aggressive]))
            else
              let tank : Option Creep :=
                match ctx.currentTank with
                | some tid => ctx.myVanguards.find? (fun v => decide (v.id = tid))
                | none => none
              let followTarget :=
                (tank).orElse (fun _ =>
                  if ctx.myVanguards.length > 0 then findClosestByRange c.pos ctx.myVanguards
                  else none)
              match followTarget with
              | some ft =>
                  match medicLeash ctx c ft with
                  | some r => some r
                  | none =>
                      if chebDist c.pos ft.pos ≤ 1 then some (moveToward ctx.terrain c ft.pos)
                      else some [.moveTo ((ctx.formationPoint ft).getD ft.pos) .aggressive]
              | none =>
                  if ctx.myRangers.length > 0 then
                    match findClosestByRange c.pos ctx.myRangers with
                    | some nearest =>
                        if chebDist c.pos nearest.pos > 2 then some [.moveTo nearest.pos .aggressive]
                        else none
                    | none => none
                  else none

/-- P4 medic follow (lines 1470-1491); `none` means fall through. -/
def medicFollowP4 (ctx : Ctx) (c : Creep) : Option (List Cmd) :=
  let follow :=
    if ctx.myVanguards.length > 0 then findClosestByRange c.pos ctx.myVanguards
    else if ctx.myRangers.length > 0 then findClosestByRange c.pos ctx.myRangers
    else none
  follow.map (fun fl =>
    match medicLeash ctx c fl with
    | some r => r
    | none => [.moveTo ((ctx.formationPoint fl).getD fl.pos) .aggressive])

/-- `doMoveAction(creep)` (line 1168): the strictly ordered movement priority
stack. The fatigue gate (line 1174) precedes every rule. Never issues
attack/heal commands. -/
def doMoveAction (ctx : Ctx) (c : Creep) : List Cmd :=
  let role := ctx.roles c.id
  let objective := ctx.targets c.id
  if c.fatigue > 0 then []
  else if shouldRetreat role ctx.myMedics c then retreatMove ctx c
  else if role = some .runner then runnerMove ctx c objective
  else
    let pullback : Option (List Cmd) :=
      if shouldPullBack role ctx.myMedics c then
        match findClosestByRange c.pos ctx.myMedics with
        | some nearest =>
            if chebDist c.pos nearest.pos > 1 then some [.moveTo nearest.pos .influence]
            else none
        | none => none
      else none
    let p1 : Option (List Cmd) :=
      if ctx.bodyParts.any (fun b => decide (b = c.pos)) then some [] else none
    let mosquito : Option (List Cmd) :=
      if !(role = some .medic) ∧ isMosquitoSituation ctx c then mosquitoMove ctx c else none
    let roleBlock : Option (List Cmd) :=
      if role = some .vanguard then vanguardMove ctx c objective
      else if role = some .ranger then rangerMove ctx c
      else if role = some .medic then medicMove ctx c
      else none
    let p4medic : Option (List Cmd) :=
      if role = some .medic then medicFollowP4 ctx c else none
    let p4obj : Option (List Cmd) := objective.map (fun obj => [.moveTo obj .aggressive])
    let p5 : Option (List Cmd) :=
      if ctx.bodyParts.length > 0 then
        match findClosestBy c.pos id ctx.bodyParts with
        | some nearest =>
            if chebDist c.pos nearest ≤ BODYPART_DEVIATE_RANGE then
              some [.moveTo nearest .engineDefault]
            else none
        | none => none
      else none
    ((((((pullback).orElse (fun _ => p1)).orElse (fun _ => mosquito)).orElse
        (fun _ => roleBlock)).orElse (fun _ => p4medic)).orElse
        (fun _ => (p4obj).orElse (fun _ => p5))).getD []

-- ─── Tick executor (src/main.mjs lines 1515-1527) ────────────────────────────

/-- `executeTick(creep)` (line 1515): the combat slot always runs; chargers
then move via `behaviorCharger`, everyone else via `doMoveAction`. -/
def executeTick (ctx : Ctx) (c : Creep) : List Cmd :=
  let combat := doCombatAction ctx c
  if ctHas ctx.ctt c.id then combat.1 ++ behaviorCharger ctx c
  else combat.1 ++ doMoveAction ctx c

-- ─── Spec-side characterizations used by the theorems ────────────────────────

/-- The cost a single enemy threat source contributes to a tile at Chebyshev
distance `d`: the decaying capped penalty of line 400 inside the threat
radius, and zero beyond it (the loop never writes there). -/
def enemyThreatContribution (e : Creep) (d : Nat) : Nat :=
  if d ≤ ENEMY_THREAT_RADIUS then enemyPenalty e d else 0

/-- Keys of an association-list map are distinct (true of any JS `Map`). -/
def NodupKeys (m : ChargerMap) : Prop := (m.map Prod.fst).Nodup

/-- The partial-bijection-with-liveness invariant of the charger tables after
the per-tick cleanup and assignment passes: keys are unique on both sides,
the two maps are mutually inverse (hence no tower has two chargers and no
charger has two towers), and every binding's charger and tower still exist. -/
def ChargerInv (myCreeps : List Creep) (allTowers : List Tower) (t : ChargerTables) : Prop :=
  NodupKeys t.tca ∧ NodupKeys t.ctt ∧
  (∀ e ∈ t.tca, t.ctt.lookup e.2 = some e.1) ∧
  (∀ e ∈ t.ctt, t.tca.lookup e.2 = some e.1) ∧
  (∀ e ∈ t.tca, (∃ c ∈ myCreeps, c.id = e.2) ∧ (∃ tw ∈ allTowers, tw.id = e.1))

/-- The states the tick loop can hand to the cleanup passes: keys unique,
every `chargerToTower` entry backed by a matching `towerChargeAssigned`
entry, and every `towerChargeAssigned` entry either backed in the inverse
direction or an orphan left by `behaviorCharger` after its tower vanished
(in which case the tower no longer exists and the charger side is clear). -/
def ChargerPre (allTowers : List Tower) (t : ChargerTables) : Prop :=
  NodupKeys t.tca ∧ NodupKeys t.ctt ∧
  (∀ e ∈ t.ctt, t.tca.lookup e.2 = some e.1) ∧
  (∀ e ∈ t.tca, t.ctt.lookup e.2 = some e.1 ∨
    ((∀ tw ∈ allTowers, tw.id ≠ e.1) ∧ t.ctt.lookup e.2 = none))

-- ─── Concrete example worlds ─────────────────────────────────────────────────

/-- An empty world context, the base for the concrete scenarios below. -/
def emptyCtx : Ctx where
  tick := 0
  terrain := fun _ => .plain
  myCreeps := []
  enemies := []
  allFlags := []
  allTowers := []
  myTowers := []
  containers := []
  bodyParts := []
  roles := fun _ => none
  ctt := []
  cstate := fun _ => none
  focus := none
  currentTank := none
  targets := fun _ => none
  searchPath := fun _ _ _ => []
  formationPoint := fun _ => none

/-- A full-health creep with the given id, position and body. -/
def mkCreep (id : Nat) (p : Pos) (body : List BodyPart) : Creep where
  id := id
  pos := p
  hits := 100
  hitsMax := 100
  fatigue := 0
  body := body
  energy := 0
  freeCap := 0

-- C1 / C9: a single enemy standing near the lower map edge.
def exThreatEnemy : Creep := mkCreep 1 ⟨50, 3⟩ [⟨.attack, 100⟩]

def exMapCtx : MapCtx where
  terrain := fun _ => .plain
  enemies := [exThreatEnemy]
  enemyTowers := []
  myCreeps := []

-- C2: ten identical melee creeps on one tile, two neutral flags.
def exRushCreeps : List Creep :=
  (List.range 10).map (fun i => mkCreep (i + 1) ⟨50, 50⟩ [⟨.attack, 100⟩, ⟨.move, 100⟩])

def exFlagNear : Flag := ⟨101, ⟨55, 50⟩, none⟩
def exFlagFar : Flag := ⟨102, ⟨80, 50⟩, none⟩

def exRushCtx : Ctx :=
  { emptyCtx with
    tick := 10
    myCreeps := exRushCreeps
    allFlags := [exFlagNear, exFlagFar]
    roles := assignRoles exRushCreeps }

-- C2 witness: a lone vanguard and a single neutral flag.
def exMiniVan : Creep := mkCreep 1 ⟨50, 50⟩ [⟨.attack, 100⟩]

def exMiniCtx : Ctx :=
  { emptyCtx with
    tick := 5
    myCreeps := [exMiniVan]
    allFlags := [⟨201, ⟨40, 40⟩, none⟩]
    roles := fun _ => some .vanguard }

-- C3 witness: a wounded ranger and a live medic.
def exWoundedRanger : Creep :=
  { mkCreep 1 ⟨10, 10⟩ [⟨.rangedAttack, 100⟩] with hits := 20 }
def exMedicCreep : Creep := mkCreep 2 ⟨12, 10⟩ [⟨.heal, 100⟩]

-- C4: one vanguard, two threatened owned flags at opposite corners.
def exDefVanguard : Creep := mkCreep 1 ⟨50, 50⟩ [⟨.attack, 100⟩, ⟨.move, 100⟩]
def exDefEnemyA : Creep := mkCreep 11 ⟨10, 10⟩ [⟨.attack, 100⟩]
def exDefEnemyB : Creep := mkCreep 12 ⟨90, 90⟩ [⟨.attack, 100⟩]
def exDefFlagOne : Flag := ⟨101, ⟨10, 12⟩, some true⟩
def exDefFlagTwo : Flag := ⟨102, ⟨90, 88⟩, some true⟩

def exDefCtx : Ctx :=
  { emptyCtx with
    tick := 200
    myCreeps := [exDefVanguard]
    enemies := [exDefEnemyA, exDefEnemyB]
    allFlags := [exDefFlagOne, exDefFlagTwo]
    roles := fun _ => some .vanguard }

-- C4 witness: the same scenario with only the first flag and enemy.
def exDefOneCtx : Ctx :=
  { emptyCtx with
    tick := 200
    myCreeps := [exDefVanguard]
    enemies := [exDefEnemyA]
    allFlags := [exDefFlagOne]
    roles := fun _ => some .vanguard }

-- C6 witness: equal-threat enemies at 90 and 500 HP, equidistant from origin.
def exLowFoe : Creep := { mkCreep 21 ⟨10, 0⟩ [] with hits := 90, hitsMax := 90 }
def exHighFoe : Creep := { mkCreep 22 ⟨0, 10⟩ [] with hits := 500, hitsMax := 500 }

-- C7 witness: a ranged creep with three adjacent enemies.
def exMassRanger : Creep := mkCreep 1 ⟨20, 20⟩ [⟨.rangedAttack, 100⟩]
def exMassFoes : List Creep :=
  [mkCreep 31 ⟨21, 20⟩ [⟨.attack, 100⟩],
   mkCreep 32 ⟨20, 21⟩ [⟨.attack, 100⟩],
   mkCreep 33 ⟨21, 21⟩ [⟨.attack, 100⟩]]

-- C8: a healthy incumbent tank that is bound as a tower charger.
def exChargerVanguard : Creep :=
  mkCreep 5 ⟨10, 10⟩ [⟨.attack, 100⟩, ⟨.carry, 100⟩, ⟨.move, 100⟩]

-- C8 witness: a weakened incumbent and a healthier replacement.
def exTankWeak : Creep :=
  { mkCreep 1 ⟨10, 10⟩ [⟨.attack, 100⟩, ⟨.move, 100⟩] with hits := 30 }
def exTankStrong : Creep := mkCreep 2 ⟨11, 10⟩ [⟨.attack, 100⟩, ⟨.move, 100⟩]

-- C10: a fatigued vanguard with an adjacent enemy.
def exTiredCreep : Creep :=
  { mkCreep 1 ⟨30, 30⟩ [⟨.attack, 100⟩, ⟨.move, 100⟩] with fatigue := 5 }
def exTiredFoe : Creep := mkCreep 21 ⟨31, 30⟩ [⟨.attack, 100⟩]

def exTiredCtx : Ctx :=
  { emptyCtx with
    myCreeps := [exTiredCreep]
    enemies := [exTiredFoe]
    roles := fun _ => some .vanguard }

-- C5 witness: a dead charger bound to a live tower.
def exBoundTower : Tower := ⟨7, ⟨5, 5⟩, true, 0, 50⟩
def exDeadTables : ChargerTables := ⟨[(7, 3)], [(3, 7)]⟩

-- ═══════════════════════════════════════════════════════════════════════════
--  Theorems
-- ═══════════════════════════════════════════════════════════════════════════

/-- C3: the retreat predicate holds only when the unit's HP ratio is strictly
below the 0.30 retreat threshold AND at least one owned Medic is alive; in
particular with zero living Medics an otherwise-eligible unit never
retreats. -/
theorem retreat_needs_low_hp_and_living_medic
    (role : Option Role) (medics : List Creep) (c : Creep) :
    (shouldRetreat role medics c = true →
      (c.hits : ℚ) < (c.hitsMax : ℚ) * RETREAT_HP_LIMIT ∧ 0 < medics.length) ∧
    (medics = [] → shouldRetreat role medics c = false) := by
  constructor
  · intro h
    unfold shouldRetreat at h
    by_cases h1 : (c.hits : ℚ) ≥ (c.hitsMax : ℚ) * RETREAT_HP_LIMIT
    · simp [h1] at h
    · refine ⟨not_le.mp h1, ?_⟩
      by_cases h2 : role = some Role.vanguard
      · simp [h1, h2] at h
      · simp [h1, h2] at h
        exact h
  · intro hm
    subst hm
    unfold shouldRetreat
    split
    · rfl
    · split
      · rfl
      · simp

/-- C3 witness: a wounded non-vanguard with one live medic does retreat, and
the theorem yields the threshold facts at that input. -/
theorem retreat_needs_low_hp_and_living_medic_witness :
    (exWoundedRanger.hits : ℚ) < (exWoundedRanger.hitsMax : ℚ) * RETREAT_HP_LIMIT ∧
    0 < [exMedicCreep].length :=
  (retreat_needs_low_hp_and_living_medic (some .ranger) [exMedicCreep] exWoundedRanger).1
    (by
      unfold shouldRetreat
      rw [if_neg (by norm_num [exWoundedRanger, mkCreep, RETREAT_HP_LIMIT]),
        if_neg (by decide)]
      decide)

/-- Filtering with a weaker predicate keeps at least as many elements. -/
theorem length_filter_mono {α : Type} {p q : α → Bool}
    (hpq : ∀ a, p a = true → q a = true) (l : List α) :
    (l.filter p).length ≤ (l.filter q).length := by
  induction l with
  | nil => simp
  | cons x xs ih =>
      simp only [List.filter_cons]
      cases hx : p x with
      | true =>
          rw [hpq x hx]
          simpa using Nat.succ_le_succ ih
      | false =>
          cases hq : q x with
          | true => simpa using Nat.le_succ_of_le ih
          | false => simpa using ih

/-- C7: a ranged-capable unit with exactly three enemies at melee range
resolves to the area (mass) ranged attack, not a focused shot. -/
theorem mass_attack_when_three_adjacent (enemies : List Creep) (c : Creep)
    (focus : Option Creep) (h3 : (findInRange c.pos enemies 1).length = 3) :
    bestRangedAction enemies c focus = ([.rangedMassAttack], some .attack) := by
  have hmono : (findInRange c.pos enemies 1).length ≤ (findInRange c.pos enemies 3).length := by
    unfold findInRange
    refine length_filter_mono (fun a ha => ?_) enemies
    simp only [decide_eq_true_eq] at ha ⊢
    omega
  rw [h3] at hmono
  have hne : ¬ ((findInRange c.pos enemies 3).length = 0) := by omega
  simp only [bestRangedAction]
  rw [if_neg hne, if_pos (by omega : (findInRange c.pos enemies 1).length ≥ 2)]

/-- C7 witness: the concrete three-adjacent-enemies pocket. -/
theorem mass_attack_when_three_adjacent_witness :
    bestRangedAction exMassFoes exMassRanger none = ([.rangedMassAttack], some .attack) :=
  mass_attack_when_three_adjacent exMassFoes exMassRanger none (by decide)

/-- C9: the cost a single enemy threat source contributes to a tile is
non-increasing in Chebyshev distance out to the threat radius (6) and zero
strictly beyond it. -/
theorem threat_contribution_decay (e : Creep) :
    (∀ d d', d ≤ d' → enemyThreatContribution e d' ≤ enemyThreatContribution e d) ∧
    (∀ d, ENEMY_THREAT_RADIUS < d → enemyThreatContribution e d = 0) := by
  have htf : (1 : ℚ) ≤ threatFloor e := le_max_left 1 _
  have h0 : (0 : ℚ) ≤ threatFloor e := le_trans zero_le_one htf
  constructor
  · intro d d' hdd
    unfold enemyThreatContribution
    by_cases h6 : d' ≤ ENEMY_THREAT_RADIUS
    · have h6d : d ≤ ENEMY_THREAT_RADIUS := le_trans hdd h6
      rw [if_pos h6, if_pos h6d]
      unfold enemyPenalty
      apply Int.toNat_le_toNat
      refine min_le_min (le_refl _) ?_
      apply Int.floor_le_floor
      gcongr
    · rw [if_neg h6]
      exact Nat.zero_le _
  · intro d hd
    unfold enemyThreatContribution
    rw [if_neg (by omega)]

/-- C9 witness: concrete distances for the decay and the zero-beyond-radius
clause. -/
theorem threat_contribution_decay_witness :
    enemyThreatContribution exThreatEnemy 2 ≤ enemyThreatContribution exThreatEnemy 1 ∧
    enemyThreatContribution exThreatEnemy 7 = 0 :=
  ⟨(threat_contribution_decay exThreatEnemy).1 1 2 (by norm_num),
   (threat_contribution_decay exThreatEnemy).2 7 (by norm_num [ENEMY_THREAT_RADIUS])⟩

/-- C10: a unit with positive fatigue gets no movement command at all from
the movement resolver (every rule including emergency retreat is behind the
fatigue gate), while the combat resolver still runs unchanged in the same
tick. -/
theorem fatigue_skips_movement_not_combat (ctx : Ctx) (c : Creep)
    (hf : 0 < c.fatigue) (hch : ctHas ctx.ctt c.id = false) :
    doMoveAction ctx c = [] ∧ executeTick ctx c = (doCombatAction ctx c).1 := by
  have hm : doMoveAction ctx c = [] := by
    unfold doMoveAction
    simp [hf]
  refine ⟨hm, ?_⟩
  unfold executeTick
  simp [hch, hm]

/-- C10 witness: a concrete fatigued vanguard issues no movement yet still
attacks its adjacent enemy. -/
theorem fatigue_skips_movement_not_combat_witness :
    doMoveAction exTiredCtx exTiredCreep = [] ∧
    executeTick exTiredCtx exTiredCreep = [.attack 21] := by
  have h := fatigue_skips_movement_not_combat exTiredCtx exTiredCreep
    (by decide) (by decide)
  have hq : (100 : ℚ) ≥ (100 : ℚ) * RETREAT_HP_LIMIT := by norm_num [RETREAT_HP_LIMIT]
  refine ⟨h.1, ?_⟩
  rw [h.2]
  simp [doCombatAction, shouldRetreat, hq, exTiredCtx, emptyCtx, exTiredCreep, exTiredFoe,
    mkCreep, Ctx.myMedics, hasActive, findInRange, minByHits, chebDist]

-- ─── Influence-map lemmas (for C1) ───────────────────────────────────────────

theorem enemyPenalty_le (e : Creep) (d : Nat) : enemyPenalty e d ≤ 200 := by
  unfold enemyPenalty
  rw [Int.toNat_le]
  exact le_trans (min_le_left _ _) (by norm_num)

theorem towerPenalty_le (d : Nat) : towerPenalty d ≤ 200 := by
  unfold towerPenalty
  rw [Int.toNat_le]
  exact le_trans (min_le_left _ _) (by norm_num)

theorem baseCost_le (ter : Pos → Terrain) (p : Pos) : baseCost ter p ≤ 10 := by
  unfold baseCost
  split <;> omega

theorem enemyStep_le (ter : Pos → Terrain) (cm : Pos → Nat) (e : Creep)
    (h : ∀ r, cm r ≤ 254) (q : Pos) : enemyStep ter cm e q ≤ 254 := by
  unfold enemyStep
  split
  · exact min_le_left _ _
  · exact h q

theorem towerStep_le (ter : Pos → Terrain) (cm : Pos → Nat) (t : Tower)
    (h : ∀ r, cm r ≤ 254) (q : Pos) : towerStep ter cm t q ≤ 254 := by
  unfold towerStep
  split
  · exact h q
  · split
    · exact min_le_left _ _
    · exact h q

theorem edgePass_le (ter : Pos → Terrain) (cm : Pos → Nat)
    (h : ∀ r, cm r ≤ 254) (q : Pos) : edgePass ter cm q ≤ 254 := by
  unfold edgePass
  split
  · exact min_le_left _ _
  · exact h q

theorem allyStep_le (cm : Pos → Nat) (a : Creep)
    (h : ∀ r, cm r ≤ 254) (q : Pos) : allyStep cm a q ≤ 254 := by
  unfold allyStep
  split
  · exact min_le_left _ _
  · exact h q

theorem foldl_bound_le {β : Type} (f : (Pos → Nat) → β → Pos → Nat)
    (hf : ∀ cm b, (∀ r, cm r ≤ 254) → ∀ q, f cm b q ≤ 254) :
    ∀ (l : List β) (cm : Pos → Nat), (∀ r, cm r ≤ 254) → ∀ q, (l.foldl f cm) q ≤ 254 := by
  intro l
  induction l with
  | nil => intro cm h q; exact h q
  | cons b bs ih => intro cm h q; exact ih (f cm b) (fun r => hf cm b h r) q

theorem enemyField_le (ter : Pos → Terrain) (es : List Creep) (p : Pos) :
    enemyField ter es p ≤ 254 := by
  induction es with
  | nil => simp [enemyField]
  | cons e es ih =>
      unfold enemyField
      refine max_le ?_ ih
      split
      · have h1 := baseCost_le ter p
        have h2 := enemyPenalty_le e (chebDist e.pos p)
        omega
      · omega

theorem towerField_le (ter : Pos → Terrain) (ts : List Tower) (p : Pos) :
    towerField ter ts p ≤ 254 := by
  induction ts with
  | nil => simp [towerField]
  | cons t ts ih =>
      unfold towerField
      refine max_le ?_ ih
      split
      · have h2 := towerPenalty_le (chebDist t.pos p)
        omega
      · omega

theorem enemyPass_eq_max (ter : Pos → Terrain) (es : List Creep) :
    ∀ (cm : Pos → Nat), (∀ r, cm r ≤ 254) → ∀ p,
      enemyPass ter es cm p = max (cm p) (enemyField ter es p) := by
  induction es with
  | nil =>
      intro cm h p
      simp [enemyPass, enemyField]
  | cons e es ih =>
      intro cm h p
      have hstep := fun q => enemyStep_le ter cm e h q
      have hrec := ih (enemyStep ter cm e) hstep p
      show enemyPass ter es (enemyStep ter cm e) p = _
      rw [hrec]
      have hstepv : enemyStep ter cm e p =
          if enemyWrites ter e p = true then
            min 254 (max (cm p) (baseCost ter p + enemyPenalty e (chebDist e.pos p)))
          else cm p := rfl
      simp only [enemyField, hstepv]
      by_cases hw : enemyWrites ter e p = true
      · rw [if_pos hw, if_pos hw]
        have hcon : baseCost ter p + enemyPenalty e (chebDist e.pos p) ≤ 254 := by
          have h1 := baseCost_le ter p
          have h2 := enemyPenalty_le e (chebDist e.pos p)
          omega
        rw [min_eq_right (max_le (h p) hcon)]
        exact Nat.max_assoc _ _ _
      · rw [if_neg hw, if_neg hw]
        rw [Nat.zero_max]

theorem towerPass_eq_max (ter : Pos → Terrain) (ts : List Tower) :
    ∀ (cm : Pos → Nat), (∀ r, cm r ≤ 254) → ∀ p,
      towerPass ter ts cm p = max (cm p) (towerField ter ts p) := by
  induction ts with
  | nil =>
      intro cm h p
      simp [towerPass, towerField]
  | cons t ts ih =>
      intro cm h p
      have hstep := fun q => towerStep_le ter cm t h q
      have hrec := ih (towerStep ter cm t) hstep p
      show towerPass ter ts (towerStep ter cm t) p = _
      rw [hrec]
      have hstepv : towerStep ter cm t p =
          if t.energy = 0 then cm p
          else if towerWrites ter t p = true then
            min 254 (max (cm p) (towerPenalty (chebDist t.pos p)))
          else cm p := rfl
      simp only [towerField, hstepv]
      by_cases he : t.energy = 0
      · rw [if_pos he]
        have hb : (!decide (t.energy = 0) && towerWrites ter t p) = false := by
          simp [he]
        rw [hb]
        simp
      · rw [if_neg he]
        by_cases hw : towerWrites ter t p = true
        · rw [if_pos hw]
          have hb : (!decide (t.energy = 0) && towerWrites ter t p) = true := by
            simp [he, hw]
          rw [hb]
          have hcon : towerPenalty (chebDist t.pos p) ≤ 254 :=
            le_trans (towerPenalty_le _) (by omega)
          rw [min_eq_right (max_le (h p) hcon)]
          simp only [if_pos rfl]
          exact Nat.max_assoc _ _ _
        · rw [if_neg hw]
          have hb : (!decide (t.energy = 0) && towerWrites ter t p) = false := by
            simp [hw]
          rw [hb]
          simp

/-- C1 (amended): after a full influence-field build every tile value lies in
[0, 254] (values are naturals, so the lower bound is structural), and the
stored value decomposes as: the enemy-threat and tower-danger overlays
combine by taking the MAXIMUM per contributing source, while the
edge-repulsion and ally-stacking penalties are then ADDED on top of that
maximum (clamped at 254), not maxed. -/
theorem influence_bounds_and_overlay_structure (mc : MapCtx) (p : Pos) :
    buildInfluenceMap mc p ≤ 254 ∧
    buildInfluenceMap mc p =
      allyPass mc.myCreeps (edgePass mc.terrain
        (fun q => max (enemyField mc.terrain mc.enemies q)
          (towerField mc.terrain mc.enemyTowers q))) p := by
  have hzero : ∀ r : Pos, (fun _ => 0 : Pos → Nat) r ≤ 254 := fun _ => Nat.zero_le _
  have hfun : enemyPass mc.terrain mc.enemies (fun _ => 0) =
      fun q => enemyField mc.terrain mc.enemies q := by
    funext q
    rw [enemyPass_eq_max mc.terrain mc.enemies _ hzero q]
    exact Nat.zero_max _
  have hfbnd : ∀ r : Pos, (fun q => enemyField mc.terrain mc.enemies q) r ≤ 254 :=
    fun r => enemyField_le mc.terrain mc.enemies r
  have htfun : towerPass mc.terrain mc.enemyTowers
      (enemyPass mc.terrain mc.enemies (fun _ => 0)) =
      fun q => max (enemyField mc.terrain mc.enemies q)
        (towerField mc.terrain mc.enemyTowers q) := by
    rw [hfun]
    funext q
    rw [towerPass_eq_max mc.terrain mc.enemyTowers _ hfbnd q]
  constructor
  · show allyPass _ _ _ ≤ 254
    unfold allyPass
    refine foldl_bound_le allyStep allyStep_le mc.myCreeps _ (fun r => ?_) p
    refine edgePass_le mc.terrain _ (fun r2 => ?_) r
    unfold towerPass
    refine foldl_bound_le (towerStep mc.terrain) (towerStep_le mc.terrain)
      mc.enemyTowers _ (fun r3 => ?_) r2
    unfold enemyPass
    exact foldl_bound_le (enemyStep mc.terrain) (enemyStep_le mc.terrain)
      mc.enemies _ hzero r3
  · show allyPass _ _ p = _
    unfold buildInfluenceMap at *
    rw [htfun]

/-- C1 counterexample: at tile (50, 3) of a world with a single enemy
standing inside the edge band, the stored value is the SUM of the
enemy-threat contribution (14) and the edge-repulsion penalty (50), which
differs from the maximum of the contributing overlay sources — refuting the
claim that every multi-source tile stores the max. -/
theorem influence_overlay_sum_counterexample :
    buildInfluenceMap exMapCtx ⟨50, 3⟩ =
      enemyField exMapCtx.terrain exMapCtx.enemies ⟨50, 3⟩ + edgeRepelPenalty ⟨50, 3⟩ ∧
    enemyField exMapCtx.terrain exMapCtx.enemies ⟨50, 3⟩ = 14 ∧
    edgeRepelPenalty ⟨50, 3⟩ = 50 ∧
    buildInfluenceMap exMapCtx ⟨50, 3⟩ ≠
      max (max (enemyField exMapCtx.terrain exMapCtx.enemies ⟨50, 3⟩)
        (towerField exMapCtx.terrain exMapCtx.enemyTowers ⟨50, 3⟩))
        (edgeRepelPenalty ⟨50, 3⟩) := by
  have hatk : countActive exThreatEnemy .attack = 1 := by decide
  have hrng : countActive exThreatEnemy .rangedAttack = 0 := by decide
  have hheal : countActive exThreatEnemy .heal = 0 := by decide
  have hts : threatScore exThreatEnemy = 31 := by
    unfold threatScore hpRatio
    rw [hatk, hrng, hheal]
    norm_num [ATTACK_POWER, RANGED_ATTACK_POWER, HEAL_POWER, exThreatEnemy, mkCreep]
  have htf : threatFloor exThreatEnemy = 31 := by
    unfold threatFloor
    rw [hts]
    norm_num
  have hpen : enemyPenalty exThreatEnemy 0 = 12 := by
    unfold enemyPenalty
    rw [htf]
    norm_num [Int.floor_eq_iff]
    rfl
  have hfield : enemyField exMapCtx.terrain exMapCtx.enemies ⟨50, 3⟩ = 14 := by
    simp only [exMapCtx, enemyField]
    rw [if_pos (by decide)]
    have hd : chebDist exThreatEnemy.pos ⟨50, 3⟩ = 0 := by decide
    rw [hd, hpen]
    decide
  have hedge : edgeRepelPenalty ⟨50, 3⟩ = 50 := by decide
  have hbuild : buildInfluenceMap exMapCtx ⟨50, 3⟩ = 64 := by
    show allyPass [] (edgePass exMapCtx.terrain (towerPass exMapCtx.terrain []
      (enemyPass exMapCtx.terrain [exThreatEnemy] (fun _ => 0)))) ⟨50, 3⟩ = 64
    have h1 : enemyPass exMapCtx.terrain [exThreatEnemy] (fun _ => 0) ⟨50, 3⟩ = 14 := by
      show enemyStep exMapCtx.terrain (fun _ => 0) exThreatEnemy ⟨50, 3⟩ = 14
      unfold enemyStep
      rw [if_pos (by decide)]
      have hd : chebDist exThreatEnemy.pos ⟨50, 3⟩ = 0 := by decide
      rw [hd, hpen]
      decide
    show edgePass exMapCtx.terrain (towerPass exMapCtx.terrain []
      (enemyPass exMapCtx.terrain [exThreatEnemy] (fun _ => 0))) ⟨50, 3⟩ = 64
    unfold edgePass
    rw [if_pos (by decide)]
    show min 254 (enemyPass exMapCtx.terrain [exThreatEnemy] (fun _ => 0) ⟨50, 3⟩ +
      edgeRepelPenalty ⟨50, 3⟩) = 64
    rw [h1, hedge]
    decide
  refine ⟨?_, hfield, hedge, ?_⟩
  · rw [hbuild, hfield, hedge]
  · rw [hbuild, hfield, hedge]
    have ht : towerField exMapCtx.terrain exMapCtx.enemyTowers ⟨50, 3⟩ = 0 := by
      simp [exMapCtx, towerField]
    rw [ht]
    decide

/-- C6: for a two-enemy pool with equal threat scores, equal distance from
the origin, one enemy at 90 HP and one at 500 HP — and no owned Medics in
play, so the preceding medic-threat criterion ties — focus selection returns
the 90 HP enemy (kill-secure threshold 100), in either pool order. -/
theorem focus_selects_kill_secured (enemies : List Creep) (fromPos : Pos) (a b : Creep)
    (hth : threatScore a = threatScore b)
    (hd : chebDist fromPos a.pos = chebDist fromPos b.pos)
    (ha : a.hits = 90) (hb : b.hits = 500) :
    selectFocusTarget [] enemies fromPos [a, b] = some a ∧
    selectFocusTarget [] enemies fromPos [b, a] = some a := by
  have hcab : focusCmp [] enemies a b = -1 := by
    simp [focusCmp, ha, hb]
  have hcba : focusCmp [] enemies b a = 1 := by
    simp [focusCmp, ha, hb]
  constructor
  · norm_num [selectFocusTarget, jsSort, stableInsert, hcab]
  · norm_num [selectFocusTarget, jsSort, stableInsert, hcba]

/-- C6 witness: the concrete 90 HP / 500 HP pair. -/
theorem focus_selects_kill_secured_witness :
    selectFocusTarget [] [exLowFoe, exHighFoe] ⟨0, 0⟩ [exLowFoe, exHighFoe] = some exLowFoe ∧
    selectFocusTarget [] [exLowFoe, exHighFoe] ⟨0, 0⟩ [exHighFoe, exLowFoe] = some exLowFoe :=
  focus_selects_kill_secured [exLowFoe, exHighFoe] ⟨0, 0⟩ exLowFoe exHighFoe
    (by norm_num [threatScore, countActive, hpRatio, exLowFoe, exHighFoe, mkCreep])
    (by decide) rfl rfl

-- ─── Stable-sort lemmas (for the tank comparator) ────────────────────────────

theorem stableInsert_mem {α : Type} {le : α → α → Bool} (x : α) (l : List α) (y : α) :
    y ∈ stableInsert le x l ↔ y = x ∨ y ∈ l := by
  induction l with
  | nil => simp [stableInsert]
  | cons z zs ih =>
      unfold stableInsert
      split
      · simp only [List.mem_cons, ih]
        tauto
      · simp only [List.mem_cons]

theorem stableInsert_sorted {α : Type} {le : α → α → Bool}
    (htot : ∀ a b, le a b = true ∨ le b a = true)
    (htrans : ∀ a b c, le a b = true → le b c = true → le a c = true)
    (x : α) (l : List α) (hl : l.Pairwise (fun a b => le a b = true)) :
    (stableInsert le x l).Pairwise (fun a b => le a b = true) := by
  induction l with
  | nil => simp [stableInsert]
  | cons z zs ih =>
      rcases List.pairwise_cons.mp hl with ⟨hz, hzs⟩
      unfold stableInsert
      split
      case isTrue hle =>
        refine List.pairwise_cons.mpr ⟨?_, ih hzs⟩
        intro y hy
        rcases (stableInsert_mem x zs y).mp hy with rfl | hmem
        · exact hle
        · exact hz y hmem
      case isFalse hnle =>
        have hxz : le x z = true := by
          rcases htot z x with h | h
          · exact absurd h hnle
          · exact h
        refine List.pairwise_cons.mpr ⟨?_, hl⟩
        intro y hy
        rcases List.mem_cons.mp hy with rfl | hmem
        · exact hxz
        · exact htrans x z y hxz (hz y hmem)

theorem jsSort_mem {α : Type} {le : α → α → Bool} (l : List α) (y : α) :
    y ∈ jsSort le l ↔ y ∈ l := by
  suffices h : ∀ acc, (y ∈ l.foldl (fun acc x => stableInsert le x acc) acc ↔
      y ∈ acc ∨ y ∈ l) by
    simpa [jsSort] using h []
  induction l with
  | nil => intro acc; simp
  | cons x xs ih =>
      intro acc
      simp only [List.foldl_cons]
      rw [ih (stableInsert le x acc), stableInsert_mem]
      simp only [List.mem_cons]
      tauto

theorem jsSort_sorted {α : Type} {le : α → α → Bool}
    (htot : ∀ a b, le a b = true ∨ le b a = true)
    (htrans : ∀ a b c, le a b = true → le b c = true → le a c = true)
    (l : List α) : (jsSort le l).Pairwise (fun a b => le a b = true) := by
  suffices h : ∀ acc, acc.Pairwise (fun a b => le a b = true) →
      (l.foldl (fun acc x => stableInsert le x acc) acc).Pairwise
        (fun a b => le a b = true) by
    exact h [] (by simp)
  induction l with
  | nil => intro acc h; simpa using h
  | cons x xs ih =>
      intro acc h
      exact ih _ (stableInsert_sorted htot htrans x acc h)

theorem jsSort_head_le {α : Type} {le : α → α → Bool}
    (htot : ∀ a b, le a b = true ∨ le b a = true)
    (htrans : ∀ a b c, le a b = true → le b c = true → le a c = true)
    (l : List α) (t : α) (rest : List α)
    (hhead : jsSort le l = t :: rest) (y : α) (hy : y ∈ l) : le t y = true := by
  have hs := jsSort_sorted htot htrans l
  rw [hhead] at hs
  have hy2 : y ∈ t :: rest := by
    rw [← hhead]
    exact (jsSort_mem l y).mpr hy
  rcases List.mem_cons.mp hy2 with rfl | hmem
  · rcases htot y y with h | h <;> exact h
  · exact (List.pairwise_cons.mp hs).1 y hmem

-- ─── Tank comparator characterization (for C8) ───────────────────────────────

theorem tankCmp_le_iff (a b : Creep) : tankCmp a b ≤ 0 ↔
    hpRatio b < hpRatio a ∨ (hpRatio b = hpRatio a ∧ b.body.length ≤ a.body.length) := by
  unfold tankCmp
  by_cases h : hpRatio a ≠ hpRatio b
  · rw [if_pos h]
    constructor
    · intro hle
      left
      have := sub_nonpos.mp hle
      exact lt_of_le_of_ne this (fun he => h he.symm)
    · intro hor
      rcases hor with hlt | ⟨he, _⟩
      · exact sub_nonpos.mpr (le_of_lt hlt)
      · exact absurd he.symm h
  · rw [if_neg h]
    push_neg at h
    constructor
    · intro hle
      right
      refine ⟨h.symm, ?_⟩
      exact_mod_cast sub_nonpos.mp hle
    · intro hor
      rcases hor with hlt | ⟨_, hlen⟩
      · exact absurd h.symm (ne_of_lt hlt)
      · exact sub_nonpos.mpr (by exact_mod_cast hlen)

theorem tankCmp_total (a b : Creep) :
    decide (tankCmp a b ≤ 0) = true ∨ decide (tankCmp b a ≤ 0) = true := by
  simp only [decide_eq_true_eq, tankCmp_le_iff]
  rcases lt_trichotomy (hpRatio a) (hpRatio b) with h | h | h
  · right; left; exact h
  · rcases Nat.le_total b.body.length a.body.length with hl | hl
    · left; right; exact ⟨h.symm, hl⟩
    · right; right; exact ⟨h, hl⟩
  · left; left; exact h

theorem tankCmp_trans (a b c : Creep) :
    decide (tankCmp a b ≤ 0) = true → decide (tankCmp b c ≤ 0) = true →
    decide (tankCmp a c ≤ 0) = true := by
  simp only [decide_eq_true_eq, tankCmp_le_iff]
  intro hab hbc
  rcases hab with h1 | ⟨h1, h1l⟩ <;> rcases hbc with h2 | ⟨h2, h2l⟩
  · left; exact lt_trans h2 h1
  · left; rw [h2]; exact h1
  · left; rw [← h1]; exact h2
  · right; exact ⟨h2.trans h1, le_trans h2l h1l⟩

/-- The keep test is vacuous on an empty pool. -/
theorem tankKeep_nil (cur : Option Nat) : tankKeep [] cur = false := by
  unfold tankKeep
  cases cur <;> simp

/-- C8 (amended): tank designation is sticky only while the incumbent is an
ELIGIBLE vanguard (alive, still classified Vanguard, and not bound as a
tower charger) above the 0.40 health floor; otherwise, when any eligible
vanguard exists, the next designation is the eligible vanguard with the
highest HP ratio, ties broken by largest body. -/
theorem tank_designation_sticky_or_best (ctt : ChargerMap) (vgs : List Creep)
    (cur : Option Nat) :
    (tankKeep (vgs.filter (fun c => !(ctHas ctt c.id))) cur = true →
      designateTank ctt vgs cur = cur) ∧
    (vgs.filter (fun c => !(ctHas ctt c.id)) ≠ [] →
      tankKeep (vgs.filter (fun c => !(ctHas ctt c.id))) cur = false →
      ∃ t ∈ vgs.filter (fun c => !(ctHas ctt c.id)),
        designateTank ctt vgs cur = some t.id ∧
        ∀ v ∈ vgs.filter (fun c => !(ctHas ctt c.id)),
          hpRatio v < hpRatio t ∨
            (hpRatio v = hpRatio t ∧ v.body.length ≤ t.body.length)) := by
  constructor
  · intro hkeep
    unfold designateTank
    have hpool : vgs.filter (fun c => !(ctHas ctt c.id)) ≠ [] := by
      intro he
      rw [he, tankKeep_nil] at hkeep
      exact Bool.false_ne_true hkeep
    rw [if_neg (by simpa [List.length_eq_zero] using hpool), if_pos hkeep]
  · intro hpool hkeep
    unfold designateTank
    rw [if_neg (by simpa [List.length_eq_zero] using hpool)]
    rw [hkeep]
    simp only [Bool.false_eq_true, if_false]
    have hsne : jsSort (fun a b => decide (tankCmp a b ≤ 0))
        (vgs.filter (fun c => !(ctHas ctt c.id))) ≠ [] := by
      intro he
      rcases List.exists_mem_of_ne_nil _ hpool with ⟨x, hx⟩
      have := (@jsSort_mem _ (fun a b => decide (tankCmp a b ≤ 0))
        (vgs.filter (fun c => !(ctHas ctt c.id))) x).mpr hx
      rw [he] at this
      exact List.not_mem_nil x this
    rcases heq : jsSort (fun a b => decide (tankCmp a b ≤ 0))
        (vgs.filter (fun c => !(ctHas ctt c.id))) with _ | ⟨t, rest⟩
    · exact absurd heq hsne
    · refine ⟨t, ?_, rfl, ?_⟩
      · have : t ∈ jsSort (fun a b => decide (tankCmp a b ≤ 0))
            (vgs.filter (fun c => !(ctHas ctt c.id))) := by
          rw [heq]; exact List.mem_cons_self t rest
        exact (jsSort_mem _ t).mp this
      · intro v hv
        have hle := jsSort_head_le tankCmp_total tankCmp_trans _ t rest heq v hv
        rw [decide_eq_true_eq] at hle
        exact (tankCmp_le_iff t v).mp hle

/-- C8 witness: a sub-floor incumbent next to a healthier vanguard; the
theorem yields the switch to the healthier unit at this input. -/
theorem tank_designation_sticky_or_best_witness :
    ∃ t ∈ [exTankWeak, exTankStrong].filter (fun c => !(ctHas [] c.id)),
      designateTank [] [exTankWeak, exTankStrong] (some 1) = some t.id ∧
      ∀ v ∈ [exTankWeak, exTankStrong].filter (fun c => !(ctHas [] c.id)),
        hpRatio v < hpRatio t ∨
          (hpRatio v = hpRatio t ∧ v.body.length ≤ t.body.length) :=
  (tank_designation_sticky_or_best [] [exTankWeak, exTankStrong] (some 1)).2
    (by decide)
    (by norm_num [tankKeep, ctHas, List.find?, exTankWeak, exTankStrong, mkCreep])

/-- C8 counterexample: a living incumbent strictly above the 0.40 health
floor that is bound as a tower charger is filtered out of the vanguard pool
and NOT kept (the pool becomes empty and the designation is cleared),
refuting the claim that a live, healthy incumbent is always kept. -/
theorem tank_kept_counterexample :
    (exChargerVanguard.hits : ℚ) > (exChargerVanguard.hitsMax : ℚ) * (40 / 100) ∧
    designateTank [(5, 77)] [exChargerVanguard] (some 5) = none ∧
    designateTank [(5, 77)] [exChargerVanguard] (some 5) ≠ some exChargerVanguard.id := by
  refine ⟨by norm_num [exChargerVanguard, mkCreep], by decide, by decide⟩

-- ─── Target-table fold lemmas (for C2/C4) ────────────────────────────────────

theorem foldl_update_const_preserve (l : List Creep) (tg : Targets) (v : Option Pos)
    (id : Nat) (hid : id ∉ l.map Creep.id) :
    (l.foldl (fun (t : Targets) c => Function.update t c.id v) tg) id = tg id := by
  induction l generalizing tg with
  | nil => rfl
  | cons c cs ih =>
      simp only [List.map_cons, List.mem_cons, not_or] at hid
      simp only [List.foldl_cons]
      rw [ih _ hid.2]
      exact Function.update_noteq hid.1 v tg

theorem foldl_update_const_mem (l : List Creep) (tg : Targets) (v : Option Pos)
    (id : Nat) (hid : id ∈ l.map Creep.id) :
    (l.foldl (fun (t : Targets) c => Function.update t c.id v) tg) id = v := by
  induction l generalizing tg with
  | nil => simp at hid
  | cons c cs ih =>
      simp only [List.foldl_cons]
      by_cases h : id ∈ cs.map Creep.id
      · exact ih _ h
      · have hc : c.id = id := by
          simp only [List.map_cons, List.mem_cons] at hid
          tauto
        rw [foldl_update_const_preserve cs _ v id h, ← hc]
        exact Function.update_same c.id v tg

theorem nearestFlagTo_mem (p : Pos) (f0 : Flag) (rest : List Flag) :
    nearestFlagTo p f0 rest ∈ f0 :: rest := by
  unfold nearestFlagTo
  induction rest generalizing f0 with
  | nil => simp
  | cons g gs ih =>
      simp only [List.foldl_cons]
      have hh := ih (if chebDist p g.pos < chebDist p f0.pos then g else f0)
      rcases List.mem_cons.mp hh with h | h
      · rw [h]
        by_cases hlt : chebDist p g.pos < chebDist p f0.pos
        · rw [if_pos hlt]; simp
        · rw [if_neg hlt]; simp
      · simp [h]

theorem nearestFlagTo_min (p : Pos) (f0 : Flag) (rest : List Flag) :
    ∀ f ∈ f0 :: rest, chebDist p (nearestFlagTo p f0 rest).pos ≤ chebDist p f.pos := by
  unfold nearestFlagTo
  induction rest generalizing f0 with
  | nil =>
      intro f hf
      simp only [List.mem_singleton] at hf
      subst hf
      exact le_refl _
  | cons g gs ih =>
      intro f hf
      simp only [List.foldl_cons]
      have ih2 := ih (if chebDist p g.pos < chebDist p f0.pos then g else f0)
      rcases List.mem_cons.mp hf with rfl | hf2
      · refine le_trans (ih2 _ (List.mem_cons_self _ _)) ?_
        by_cases hlt : chebDist p g.pos < chebDist p f.pos
        · rw [if_pos hlt]; exact le_of_lt hlt
        · rw [if_neg hlt]
      · rcases List.mem_cons.mp hf2 with rfl | hf3
        · refine le_trans (ih2 _ (List.mem_cons_self _ _)) ?_
          by_cases hlt : chebDist p f.pos < chebDist p f0.pos
          · rw [if_pos hlt]
          · rw [if_neg hlt]; exact not_lt.mp hlt
        · exact ih2 f (List.mem_cons.mpr (Or.inr hf3))

/-- C2 (amended): during the early phase with neutral flags present, every
MAIN-ARMY unit (any role other than Runner, not charger-bound) is assigned
the neutral flag nearest the squad centroid; Runner units are distributed
across the uncaptured flags separately and may receive a farther flag. -/
theorem rush_main_army_to_nearest_neutral (ctx : Ctx) (tg0 : Targets) (c : Creep)
    (htick : ctx.tick ≤ PHASE_EXPAND_END)
    (hne : ctx.neutralFlags ≠ [])
    (hc : c ∈ ctx.myCreeps)
    (hrole : ¬ ctx.roles c.id = some Role.runner)
    (hch : ctHas ctx.ctt c.id = false) :
    ∃ g ∈ ctx.neutralFlags,
      (commandLayer ctx tg0).targets c.id = some g.pos ∧
      ∀ f ∈ ctx.neutralFlags,
        chebDist (centroidOf ctx) g.pos ≤ chebDist (centroidOf ctx) f.pos := by
  have hcond : ctx.tick ≤ PHASE_EXPAND_END ∧ ctx.neutralFlags.length > 0 :=
    ⟨htick, List.length_pos.mpr hne⟩
  have hmain : c ∈ mainArmyOf ctx := by
    refine List.mem_filter.mpr ⟨hc, ?_⟩
    simp [hrole, hch]
  have hid : c.id ∈ (mainArmyOf ctx).map Creep.id := List.mem_map_of_mem Creep.id hmain
  rcases hnf : ctx.neutralFlags with _ | ⟨f0, rest⟩
  · exact absurd hnf hne
  · refine ⟨nearestFlagTo (centroidOf ctx) f0 rest, ?_, ?_, ?_⟩
    · exact nearestFlagTo_mem _ f0 rest
    · simp only [commandLayer]
      rw [if_pos hcond, hnf]
      simp only []
      exact foldl_update_const_mem (mainArmyOf ctx) _ _ c.id hid
    · exact nearestFlagTo_min _ f0 rest

/-- C2 witness: a lone vanguard with a single neutral flag is sent to it. -/
theorem rush_main_army_to_nearest_neutral_witness :
    ∃ g ∈ exMiniCtx.neutralFlags,
      (commandLayer exMiniCtx (fun _ => none)).targets exMiniVan.id = some g.pos ∧
      ∀ f ∈ exMiniCtx.neutralFlags,
        chebDist (centroidOf exMiniCtx) g.pos ≤ chebDist (centroidOf exMiniCtx) f.pos :=
  rush_main_army_to_nearest_neutral exMiniCtx (fun _ => none) exMiniVan
    (by decide) (by decide) (by decide) (by decide) (by decide)

/-- C2 counterexample: ten identical melee creeps, no enemies, two neutral
flags; with the code's OWN role assignment two of the ten become Runners,
and runner distribution sends the second Runner to the farther flag — so not
every one of the ten units receives the nearer flag. -/
theorem rush_not_all_nearer_flag_counterexample :
    centroidOf exRushCtx = ⟨50, 50⟩ ∧
    chebDist ⟨50, 50⟩ exFlagNear.pos < chebDist ⟨50, 50⟩ exFlagFar.pos ∧
    (∃ c ∈ exRushCtx.myCreeps,
      (commandLayer exRushCtx (fun _ => none)).targets c.id = some exFlagFar.pos) ∧
    exFlagFar.pos ≠ exFlagNear.pos := by
  have hcent : centroidOf exRushCtx = ⟨50, 50⟩ := by
    unfold centroidOf
    have hsq : squadCentroid exRushCtx.myVanguards exRushCtx.myRangers = some ⟨50, 50⟩ := by
      unfold squadCentroid
      rw [if_neg (by decide)]
      have hx : ((exRushCtx.myVanguards ++ exRushCtx.myRangers).foldl
          (fun s c => s + c.pos.x) 0 : Int) = 400 := by decide
      have hy : ((exRushCtx.myVanguards ++ exRushCtx.myRangers).foldl
          (fun s c => s + c.pos.y) 0 : Int) = 400 := by decide
      have hlen : (exRushCtx.myVanguards ++ exRushCtx.myRangers).length = 8 := by decide
      rw [hx, hy, hlen]
      have hr : jsRound (((400 : Int) : ℚ) / ((8 : Nat) : ℚ)) = 50 := by
        unfold jsRound
        norm_num [Int.floor_eq_iff]
      rw [hr]
    rw [hsq]
    rfl
  refine ⟨hcent, by decide, ?_, by decide⟩
  refine ⟨mkCreep 2 ⟨50, 50⟩ [⟨.attack, 100⟩, ⟨.move, 100⟩], by decide, ?_⟩
  have hcond : exRushCtx.tick ≤ PHASE_EXPAND_END ∧ exRushCtx.neutralFlags.length > 0 := by
    decide
  have hnf : exRushCtx.neutralFlags = [exFlagNear, exFlagFar] := by decide
  simp only [commandLayer]
  rw [if_pos hcond, hnf]
  simp only []
  rw [hcent]
  decide

-- ─── Flag-defense interceptor lemmas (for C4) ────────────────────────────────

theorem foldl_pick_mem {α : Type} (step : α → α → α)
    (hstep : ∀ b x, step b x = b ∨ step b x = x) :
    ∀ (l : List α) (b : α), l.foldl step b ∈ b :: l := by
  intro l
  induction l with
  | nil => intro b; simp
  | cons x xs ih =>
      intro b
      simp only [List.foldl_cons]
      rcases List.mem_cons.mp (ih (step b x)) with h | h
      · rw [h]
        rcases hstep b x with h2 | h2 <;> rw [h2] <;> simp
      · simp [h]

theorem findClosestByRange_mem (p : Pos) (l : List Creep) (u : Creep)
    (h : findClosestByRange p l = some u) : u ∈ l := by
  cases l with
  | nil => simp [findClosestByRange] at h
  | cons c cs =>
      simp only [findClosestByRange, Option.some.injEq] at h
      subst h
      have := foldl_pick_mem
        (fun best x => if chebDist p x.pos < chebDist p best.pos then x else best)
        (fun b x => by
          by_cases h : chebDist p x.pos < chebDist p b.pos
          · right; simp [h]
          · left; simp [h]) cs c
      simpa using this

theorem foldl_id_of_steps_id {α β : Type} (step : β → α → β) (l : List α) (b : β)
    (h : ∀ a ∈ l, ∀ b2, step b2 a = b2) : l.foldl step b = b := by
  induction l generalizing b with
  | nil => rfl
  | cons x xs ih =>
      simp only [List.foldl_cons]
      rw [h x (by simp) b]
      exact ih b (fun a ha b2 => h a (by simp [ha]) b2)

theorem interceptStep_skip (ctx : Ctx) (ma : List Creep) (t : Targets) (f : Flag)
    (h : (findInRange f.pos ctx.enemies 10).length = 0 ∨
      ((findInRange f.pos ctx.myCreeps 5).filter (fun c => !(ctHas ctx.ctt c.id))).length > 0) :
    interceptStep ctx ma t f = t := by
  unfold interceptStep
  rcases h with h | h
  · rw [if_pos h]
  · by_cases ht : (findInRange f.pos ctx.enemies 10).length = 0
    · rw [if_pos ht]
    · rw [if_neg ht, if_pos h]

theorem interceptStep_write (ctx : Ctx) (ma : List Creep) (t : Targets) (F : Flag) (u : Creep)
    (hthreat : (findInRange F.pos ctx.enemies 10).length ≠ 0)
    (hdef : ¬ (((findInRange F.pos ctx.myCreeps 5).filter
      (fun c => !(ctHas ctx.ctt c.id))).length > 0))
    (hu : findClosestByRange F.pos (ma.filter (fun c =>
      decide (ctx.roles c.id = some Role.vanguard) ||
      decide (ctx.roles c.id = some Role.ranger))) = some u) :
    interceptStep ctx ma t F = Function.update t u.id (some F.pos) := by
  unfold interceptStep
  rw [if_neg hthreat, if_neg hdef]
  have hne : ¬ ((ma.filter (fun c =>
      decide (ctx.roles c.id = some Role.vanguard) ||
      decide (ctx.roles c.id = some Role.ranger))).length = 0) := by
    intro h0
    rw [List.length_eq_zero.mp h0] at hu
    simp [findClosestByRange] at hu
  rw [if_neg hne, hu]

theorem foldl_interceptStep_result (ctx : Ctx) (ma : List Creep) (F : Flag) (u : Creep)
    (hwrite : ∀ t : Targets, interceptStep ctx ma t F = Function.update t u.id (some F.pos)) :
    ∀ (l : List Flag) (t : Targets), F ∈ l →
    (∀ f ∈ l, f ≠ F → ∀ t2 : Targets, interceptStep ctx ma t2 f = t2) →
    (l.foldl (interceptStep ctx ma) t) u.id = some F.pos := by
  intro l
  induction l with
  | nil => intro t hFl _; simp at hFl
  | cons f fs ih =>
      intro t hFl hskip
      simp only [List.foldl_cons]
      by_cases hfF : F ∈ fs
      · exact ih _ hfF (fun g hg => hskip g (List.mem_cons_of_mem f hg))
      · have hf : f = F := by
          rcases List.mem_cons.mp hFl with h | h
          · exact h.symm
          · exact absurd h hfF
        subst hf
        rw [hwrite t]
        rw [foldl_id_of_steps_id (interceptStep ctx ma) fs _
          (fun a ha b2 =>
            hskip a (List.mem_cons_of_mem f ha) (fun he => hfF (he ▸ ha)) b2)]
        exact Function.update_same u.id (some f.pos) t

theorem foldl_straggler_preserve (ctx : Ctx) (centroid : Pos) (id : Nat)
    (l : List Creep) (t : Targets)
    (h : ∀ c ∈ l, c.id = id →
      ¬(chebDist c.pos centroid > 15 ∧
        (findInRange c.pos ctx.enemies MOSQUITO_DETECT_RANGE).length ≥ 3)) :
    (l.foldl (stragglerStep ctx centroid) t) id = t id := by
  induction l generalizing t with
  | nil => rfl
  | cons c cs ih =>
      simp only [List.foldl_cons]
      rw [ih _ (fun c2 hc2 => h c2 (List.mem_cons_of_mem c hc2))]
      unfold stragglerStep
      by_cases h1 : chebDist c.pos centroid > 15
      · rw [if_pos h1]
        by_cases h2 : (findInRange c.pos ctx.enemies MOSQUITO_DETECT_RANGE).length ≥ 3
        · rw [if_pos h2]
          have hne : c.id ≠ id := fun he => (h c (by simp) he) ⟨h1, h2⟩
          exact Function.update_noteq (fun he => hne he.symm) _ t
        · rw [if_neg h2]
      · rw [if_neg h1]

/-- C4 (amended): outside the phase-1 flag-rush branch, when exactly one
owned flag is threatened (an enemy within range 10) and undefended (no
non-charger within range 5), and the closest eligible interceptor (Vanguard
or Ranger of the main army) is not itself recalled by the straggler pass,
that unit ends the commander run targeting that flag. With several
simultaneously threatened flags sharing the same closest unit, only the last
scanned flag keeps the interceptor (see the counterexample). -/
theorem flag_defense_redirects_closest (ctx : Ctx) (tg0 : Targets) (F : Flag) (u : Creep)
    (hphase : ¬ (ctx.tick ≤ PHASE_EXPAND_END ∧ ctx.neutralFlags.length > 0))
    (hthreat : (findInRange F.pos ctx.enemies 10).length ≠ 0)
    (hdef : ¬ (((findInRange F.pos ctx.myCreeps 5).filter
      (fun c => !(ctHas ctx.ctt c.id))).length > 0))
    (hu : findClosestByRange F.pos ((mainArmyOf ctx).filter (fun c =>
      decide (ctx.roles c.id = some Role.vanguard) ||
      decide (ctx.roles c.id = some Role.ranger))) = some u)
    (hF : F ∈ ctx.allFlags.filter (fun f => decide (f.owner = some true)))
    (huniq : ∀ f ∈ ctx.allFlags.filter (fun f => decide (f.owner = some true)), f ≠ F →
      (findInRange f.pos ctx.enemies 10).length = 0 ∨
      ((findInRange f.pos ctx.myCreeps 5).filter
        (fun c => !(ctHas ctx.ctt c.id))).length > 0)
    (hnostrag : ∀ c ∈ mainArmyOf ctx, c.id = u.id →
      ¬(chebDist c.pos (centroidOf ctx) > 15 ∧
        (findInRange c.pos ctx.enemies MOSQUITO_DETECT_RANGE).length ≥ 3)) :
    (commandLayer ctx tg0).targets u.id = some F.pos := by
  simp only [commandLayer]
  rw [if_neg hphase]
  simp only []
  rw [foldl_straggler_preserve ctx (centroidOf ctx) u.id _ _ hnostrag]
  exact foldl_interceptStep_result ctx (mainArmyOf ctx) F u
    (fun t => interceptStep_write ctx (mainArmyOf ctx) t F u hthreat hdef hu)
    _ _ hF
    (fun f hmem hfF t => interceptStep_skip ctx (mainArmyOf ctx) t f (huniq f hmem hfF))

/-- C4 counterexample: two owned flags at opposite corners are each
threatened (enemy within range 10) and undefended (no non-charger within
range 5), and share their single closest eligible interceptor; after the
scan the unit targets only the LATER flag, so the first flag — although it
satisfies the claim's conditions — gets no interceptor. -/
theorem flag_defense_shared_interceptor_counterexample :
    (findInRange exDefFlagOne.pos exDefCtx.enemies 10).length ≠ 0 ∧
    ((findInRange exDefFlagOne.pos exDefCtx.myCreeps 5).filter
      (fun c => !(ctHas exDefCtx.ctt c.id))).length = 0 ∧
    findClosestByRange exDefFlagOne.pos ((mainArmyOf exDefCtx).filter (fun c =>
      decide (exDefCtx.roles c.id = some Role.vanguard) ||
      decide (exDefCtx.roles c.id = some Role.ranger))) = some exDefVanguard ∧
    (commandLayer exDefCtx (fun _ => none)).targets exDefVanguard.id = some exDefFlagTwo.pos ∧
    exDefFlagTwo.pos ≠ exDefFlagOne.pos := by
  have hcent : centroidOf exDefCtx = ⟨50, 50⟩ := by
    unfold centroidOf
    have hsq : squadCentroid exDefCtx.myVanguards exDefCtx.myRangers = some ⟨50, 50⟩ := by
      unfold squadCentroid
      rw [if_neg (by decide)]
      have hx : ((exDefCtx.myVanguards ++ exDefCtx.myRangers).foldl
          (fun s c => s + c.pos.x) 0 : Int) = 50 := by decide
      have hy : ((exDefCtx.myVanguards ++ exDefCtx.myRangers).foldl
          (fun s c => s + c.pos.y) 0 : Int) = 50 := by decide
      have hlen : (exDefCtx.myVanguards ++ exDefCtx.myRangers).length = 1 := by decide
      rw [hx, hy, hlen]
      have hr : jsRound (((50 : Int) : ℚ) / ((1 : Nat) : ℚ)) = 50 := by
        unfold jsRound
        norm_num [Int.floor_eq_iff]
      rw [hr]
    rw [hsq]
    rfl
  refine ⟨by decide, by decide, by decide, ?_, by decide⟩
  simp only [commandLayer]
  rw [if_neg (by decide)]
  simp only []
  rw [hcent]
  decide

/-- C4 witness: the single-threatened-flag case of the amended theorem at a
concrete world — the lone vanguard is redirected to the flag. -/
theorem flag_defense_redirects_closest_witness :
    (commandLayer exDefOneCtx (fun _ => none)).targets exDefVanguard.id =
      some exDefFlagOne.pos := by
  have hcent : centroidOf exDefOneCtx = ⟨50, 50⟩ := by
    unfold centroidOf
    have hsq : squadCentroid exDefOneCtx.myVanguards exDefOneCtx.myRangers = some ⟨50, 50⟩ := by
      unfold squadCentroid
      rw [if_neg (by decide)]
      have hx : ((exDefOneCtx.myVanguards ++ exDefOneCtx.myRangers).foldl
          (fun s c => s + c.pos.x) 0 : Int) = 50 := by decide
      have hy : ((exDefOneCtx.myVanguards ++ exDefOneCtx.myRangers).foldl
          (fun s c => s + c.pos.y) 0 : Int) = 50 := by decide
      have hlen : (exDefOneCtx.myVanguards ++ exDefOneCtx.myRangers).length = 1 := by decide
      rw [hx, hy, hlen]
      have hr : jsRound (((50 : Int) : ℚ) / ((1 : Nat) : ℚ)) = 50 := by
        unfold jsRound
        norm_num [Int.floor_eq_iff]
      rw [hr]
    rw [hsq]
    rfl
  refine flag_defense_redirects_closest exDefOneCtx (fun _ => none) exDefFlagOne exDefVanguard
    (by decide) (by decide) (by decide) (by decide) (by decide)
    (by decide)
    ?_
  intro c hc hid
  rw [hcent]
  have hma : mainArmyOf exDefOneCtx = [exDefVanguard] := by decide
  rw [hma] at hc
  simp only [List.mem_singleton] at hc
  subst hc
  decide

-- ─── Association-list kit (for C5) ───────────────────────────────────────────

theorem lookup_cons_eq (k k2 v2 : Nat) (es : ChargerMap) :
    List.lookup k ((k2, v2) :: es) = if k = k2 then some v2 else List.lookup k es := by
  rw [List.lookup_cons]
  by_cases h : k = k2
  · have hb : (k == k2) = true := beq_iff_eq.mpr h
    rw [hb, if_pos h]
  · have hb : (k == k2) = false := beq_eq_false_iff_ne.mpr h
    rw [hb, if_neg h]

theorem lookup_mem {m : ChargerMap} {k v : Nat} (h : m.lookup k = some v) : (k, v) ∈ m := by
  induction m with
  | nil => simp [List.lookup] at h
  | cons e es ih =>
      rcases e with ⟨k2, v2⟩
      rw [lookup_cons_eq] at h
      by_cases hk : k = k2
      · rw [if_pos hk] at h
        injection h with hv
        subst hk
        subst hv
        exact List.mem_cons_self _ _
      · rw [if_neg hk] at h
        exact List.mem_cons_of_mem _ (ih h)

theorem lookup_eq_none_iff {m : ChargerMap} {k : Nat} :
    m.lookup k = none ↔ k ∉ m.map Prod.fst := by
  induction m with
  | nil => simp [List.lookup]
  | cons e es ih =>
      rcases e with ⟨k2, v2⟩
      rw [lookup_cons_eq]
      by_cases hk : k = k2
      · rw [if_pos hk]
        simp [hk]
      · rw [if_neg hk]
        simp [hk, ih]

theorem mem_lookup {m : ChargerMap} (hnd : NodupKeys m) {k v : Nat} (h : (k, v) ∈ m) :
    m.lookup k = some v := by
  induction m with
  | nil => simp at h
  | cons e es ih =>
      rcases e with ⟨k2, v2⟩
      unfold NodupKeys at hnd
      rw [List.map_cons, List.nodup_cons] at hnd
      rw [lookup_cons_eq]
      rcases List.mem_cons.mp h with he | he
      · rw [Prod.mk.injEq] at he
        rw [if_pos he.1, he.2]
      · by_cases hk : k = k2
        · exfalso
          apply hnd.1
          subst hk
          exact List.mem_map.mpr ⟨(k, v), he, rfl⟩
        · rw [if_neg hk]
          exact ih hnd.2 he

theorem NodupKeys_filter {m : ChargerMap} (p : Nat × Nat → Bool) (h : NodupKeys m) :
    NodupKeys (m.filter p) :=
  List.Nodup.sublist ((List.filter_sublist m).map Prod.fst) h

theorem eraseKey_mem {m : ChargerMap} {k : Nat} {e : Nat × Nat} :
    e ∈ eraseKey m k ↔ e ∈ m ∧ e.1 ≠ k := by
  unfold eraseKey
  simp [List.mem_filter]

theorem eraseKey_nodup {m : ChargerMap} {k : Nat} (h : NodupKeys m) :
    NodupKeys (eraseKey m k) :=
  NodupKeys_filter _ h

theorem lookup_eraseKey_self (m : ChargerMap) (k : Nat) :
    (eraseKey m k).lookup k = none := by
  rw [lookup_eq_none_iff]
  intro hmem
  rcases List.mem_map.mp hmem with ⟨e, he, hfst⟩
  have := (eraseKey_mem.mp he).2
  exact this hfst

theorem lookup_eraseKey_ne {m : ChargerMap} {k k2 : Nat} (h : k2 ≠ k) :
    (eraseKey m k).lookup k2 = m.lookup k2 := by
  induction m with
  | nil => rfl
  | cons e es ih =>
      rcases e with ⟨ka, va⟩
      unfold eraseKey
      simp only [List.filter_cons]
      by_cases hka : ka = k
      · have hc : (!(decide ((ka, va).1 = k))) = false := by simp [hka]
        rw [hc]
        show (eraseKey es k).lookup k2 = _
        rw [ih, lookup_cons_eq, if_neg (by omega : ¬ k2 = ka)]
      · have hc : (!(decide ((ka, va).1 = k))) = true := by simp [hka]
        rw [hc]
        show List.lookup k2 ((ka, va) :: eraseKey es k) = _
        rw [lookup_cons_eq, lookup_cons_eq]
        by_cases hk2 : k2 = ka
        · rw [if_pos hk2, if_pos hk2]
        · rw [if_neg hk2, if_neg hk2]
          exact ih

theorem lookup_eraseKey_none {m : ChargerMap} {k k2 : Nat} (h : m.lookup k = none) :
    (eraseKey m k2).lookup k = none := by
  by_cases he : k = k2
  · subst he
    exact lookup_eraseKey_self m k
  · rw [lookup_eraseKey_ne he]
    exact h

theorem lookup_filter_some {m : ChargerMap} (hnd : NodupKeys m) (p : Nat × Nat → Bool)
    {k v : Nat} :
    (m.filter p).lookup k = some v ↔ m.lookup k = some v ∧ p (k, v) = true := by
  constructor
  · intro h
    have hm := lookup_mem h
    have h2 := List.mem_filter.mp hm
    exact ⟨mem_lookup hnd h2.1, h2.2⟩
  · intro ⟨h1, h2⟩
    exact mem_lookup (NodupKeys_filter p hnd) (List.mem_filter.mpr ⟨lookup_mem h1, h2⟩)

theorem lookup_append_orElse (m l : ChargerMap) (k : Nat) :
    (m ++ l).lookup k = (m.lookup k).orElse (fun _ => l.lookup k) := by
  induction m with
  | nil => simp [List.lookup]
  | cons e es ih =>
      rcases e with ⟨ka, va⟩
      rw [List.cons_append, lookup_cons_eq, lookup_cons_eq]
      by_cases hk : k = ka
      · rw [if_pos hk, if_pos hk]
        rfl
      · rw [if_neg hk, if_neg hk]
        exact ih

theorem setKey_of_lookup_none {m : ChargerMap} {k : Nat} (h : m.lookup k = none) (v : Nat) :
    setKey m k v = m ++ [(k, v)] := by
  unfold setKey
  rw [h]
  simp

theorem NodupKeys_append_fresh {m : ChargerMap} {k : Nat} (hnd : NodupKeys m)
    (h : m.lookup k = none) (v : Nat) : NodupKeys (m ++ [(k, v)]) := by
  unfold NodupKeys at *
  rw [List.map_append]
  refine List.Nodup.append hnd (by simp) ?_
  intro a ha hb
  simp only [List.map_cons, List.map_nil, List.mem_singleton] at hb
  subst hb
  exact lookup_eq_none_iff.mp h ha

-- ─── Charger cleanup/assignment pass lemmas (for C5) ─────────────────────────

theorem deathStep_pre (allTowers : List Tower) (st : ChargerTables) (id : Nat)
    (h : ChargerPre allTowers st) : ChargerPre allTowers (deathStep st id) := by
  unfold ChargerPre at h ⊢
  obtain ⟨hnd1, hnd2, h3, h4⟩ := h
  unfold deathStep
  cases hct : st.ctt.lookup id with
  | none =>
      refine ⟨hnd1, eraseKey_nodup hnd2, ?_, ?_⟩
      · intro e he
        exact h3 e (eraseKey_mem.mp he).1
      · intro e he
        rcases h4 e he with hc | ⟨ho1, ho2⟩
        · left
          have hne : e.2 ≠ id := by
            intro hh
            rw [hh, hct] at hc
            exact Option.noConfusion hc
          rw [lookup_eraseKey_ne hne]
          exact hc
        · right
          exact ⟨ho1, lookup_eraseKey_none ho2⟩
  | some tid =>
      have hmem : (id, tid) ∈ st.ctt := lookup_mem hct
      have htca : st.tca.lookup tid = some id := h3 (id, tid) hmem
      refine ⟨eraseKey_nodup hnd1, eraseKey_nodup hnd2, ?_, ?_⟩
      · intro e he
        obtain ⟨hee, hne⟩ := eraseKey_mem.mp he
        have hl := h3 e hee
        have hne2 : e.2 ≠ tid := by
          intro hh
          rw [hh, htca] at hl
          injection hl with hl2
          exact hne (by rw [← hl2])
        rw [lookup_eraseKey_ne hne2]
        exact hl
      · intro e he
        obtain ⟨hee, hnet⟩ := eraseKey_mem.mp he
        rcases h4 e hee with hc | ⟨ho1, ho2⟩
        · left
          have hne : e.2 ≠ id := by
            intro hh
            rw [hh, hct] at hc
            injection hc with hc2
            exact hnet hc2.symm
          rw [lookup_eraseKey_ne hne]
          exact hc
        · right
          exact ⟨ho1, lookup_eraseKey_none ho2⟩

theorem deathCleanup_pre (allTowers : List Tower) (prevIds aliveIds : List Nat)
    (st : ChargerTables) (h : ChargerPre allTowers st) :
    ChargerPre allTowers (deathCleanup prevIds aliveIds st) := by
  unfold deathCleanup
  generalize prevIds.filter (fun id => !(aliveIds.contains id)) = l
  induction l generalizing st with
  | nil => exact h
  | cons x xs ih => exact ih _ (deathStep_pre allTowers st x h)

/-- A `towerChargeAssigned` entry surviving the release loop has a live
charger and a live, not-yet-charged tower. -/
theorem releaseKeep_spec (myCreeps : List Creep) (allTowers : List Tower)
    (e : Nat × Nat) (h : releaseKeep myCreeps allTowers e = true) :
    (∃ c ∈ myCreeps, c.id = e.2) ∧ (∃ tw ∈ allTowers, tw.id = e.1) := by
  unfold releaseKeep at h
  rw [Bool.and_eq_true] at h
  constructor
  · rcases List.any_eq_true.mp h.1 with ⟨c, hc, hdec⟩
    exact ⟨c, hc, of_decide_eq_true hdec⟩
  · rcases hfind : allTowers.find? (fun tw => decide (tw.id = e.1)) with _ | tw
    · rw [hfind] at h
      exact absurd h.2 (by simp)
    · refine ⟨tw, List.mem_of_find?_eq_some hfind, ?_⟩
      have := List.find?_some hfind
      exact of_decide_eq_true this

theorem releasePass_inv (myCreeps : List Creep) (allTowers : List Tower)
    (st : ChargerTables) (h : ChargerPre allTowers st) :
    ChargerInv myCreeps allTowers (releasePass myCreeps allTowers st) := by
  unfold ChargerPre at h
  obtain ⟨hnd1, hnd2, h3, h4⟩ := h
  unfold ChargerInv releasePass
  simp only []
  have hnd1f : NodupKeys (st.tca.filter (releaseKeep myCreeps allTowers)) :=
    NodupKeys_filter _ hnd1
  have hnd2f : NodupKeys (st.ctt.filter (fun e =>
      !((st.tca.filter (fun e2 => !(releaseKeep myCreeps allTowers e2))).any
        (fun r => decide (r.2 = e.1))))) := NodupKeys_filter _ hnd2
  refine ⟨hnd1f, hnd2f, ?_, ?_, ?_⟩
  · -- every kept tca entry still has its inverse ctt entry
    intro e he
    obtain ⟨hee, hkeep⟩ := List.mem_filter.mp he
    rcases h4 e hee with hc | ⟨ho1, _⟩
    · have hcm : (e.2, e.1) ∈ st.ctt := lookup_mem hc
      refine mem_lookup hnd2f (List.mem_filter.mpr ⟨hcm, ?_⟩)
      simp only [Bool.not_eq_true']
      rw [List.any_eq_false]
      intro r hr
      obtain ⟨hrm, hrk⟩ := List.mem_filter.mp hr
      simp only [Bool.not_eq_true'] at hrk
      intro hdec
      have hre : r.2 = e.2 := of_decide_eq_true hdec
      rcases h4 r hrm with hrc | ⟨_, hrn⟩
      · rw [hre, hc] at hrc
        injection hrc with hr1
        have hre2 : r = e := Prod.ext hr1.symm hre
        rw [hre2, hkeep] at hrk
        exact Bool.noConfusion hrk
      · rw [hre, hc] at hrn
        exact Option.noConfusion hrn
    · exfalso
      have := releaseKeep_spec myCreeps allTowers e hkeep
      rcases this.2 with ⟨tw, htw, hid⟩
      exact ho1 tw htw hid
  · -- every kept ctt entry still has its inverse tca entry
    intro e he
    obtain ⟨hee, hkept⟩ := List.mem_filter.mp he
    have hc := h3 e hee
    have hcm : (e.2, e.1) ∈ st.tca := lookup_mem hc
    refine mem_lookup hnd1f (List.mem_filter.mpr ⟨hcm, ?_⟩)
    by_contra hnk
    simp only [Bool.not_eq_true] at hnk
    simp only [Bool.not_eq_true'] at hkept
    rw [List.any_eq_false] at hkept
    refine hkept (e.2, e.1) (List.mem_filter.mpr ⟨hcm, by simp [hnk]⟩) ?_
    simp
  · -- liveness of every kept binding
    intro e he
    obtain ⟨_, hkeep⟩ := List.mem_filter.mp he
    exact releaseKeep_spec myCreeps allTowers e hkeep

theorem assignStep_inv (myCreeps : List Creep) (allTowers : List Tower)
    (containers : List Container) (tw : Tower) (hmt : tw ∈ allTowers)
    (st : ChargerTables) (h : ChargerInv myCreeps allTowers st) :
    ChargerInv myCreeps allTowers (assignStep myCreeps containers st tw) := by
  unfold assignStep
  by_cases h0 : (st.tca.lookup tw.id).isSome
  · rw [if_pos h0]; exact h
  · rw [if_neg h0]
    by_cases h1 : towerNotHungry tw = true
    · rw [if_pos h1]; exact h
    · rw [if_neg h1]
      by_cases h2 : (containers.filter (fun c => decide (c.energy > 0))).length = 0
      · rw [if_pos h2]; exact h
      · rw [if_neg h2]
        simp only []
        cases hfc : findClosestByRange tw.pos (myCreeps.filter (fun c =>
            !((st.ctt.lookup c.id).isSome) && hasActive c .carry &&
              decide (chebDist c.pos tw.pos ≤ TOWER_ASSIGN_RADIUS))) with
        | none => exact h
        | some chosen =>
            have htcanone : st.tca.lookup tw.id = none := by
              cases hop : st.tca.lookup tw.id with
              | none => rfl
              | some x => rw [hop] at h0; simp at h0
            have hchosen := findClosestByRange_mem tw.pos _ chosen hfc
            obtain ⟨hcm, hcand⟩ := List.mem_filter.mp hchosen
            rw [Bool.and_eq_true, Bool.and_eq_true] at hcand
            have hcttnone : st.ctt.lookup chosen.id = none := by
              have hb := hcand.1.1
              cases hop : st.ctt.lookup chosen.id with
              | none => rfl
              | some x => rw [hop] at hb; simp at hb
            unfold ChargerInv at h ⊢
            obtain ⟨hnd1, hnd2, h3, h4, h5⟩ := h
            simp only []
            rw [setKey_of_lookup_none htcanone, setKey_of_lookup_none hcttnone]
            refine ⟨NodupKeys_append_fresh hnd1 htcanone _,
                    NodupKeys_append_fresh hnd2 hcttnone _, ?_, ?_, ?_⟩
            · intro e he
              rw [lookup_append_orElse]
              rcases List.mem_append.mp he with hem | hem
              · rw [h3 e hem]
                rfl
              · simp only [List.mem_singleton] at hem
                subst hem
                simp only []
                rw [hcttnone]
                show List.lookup chosen.id [(chosen.id, tw.id)] = some tw.id
                rw [lookup_cons_eq, if_pos rfl]
            · intro e he
              rw [lookup_append_orElse]
              rcases List.mem_append.mp he with hem | hem
              · rw [h4 e hem]
                rfl
              · simp only [List.mem_singleton] at hem
                subst hem
                simp only []
                rw [htcanone]
                show List.lookup tw.id [(tw.id, chosen.id)] = some chosen.id
                rw [lookup_cons_eq, if_pos rfl]
            · intro e he
              rcases List.mem_append.mp he with hem | hem
              · exact h5 e hem
              · simp only [List.mem_singleton] at hem
                subst hem
                exact ⟨⟨chosen, hcm, rfl⟩, ⟨tw, hmt, rfl⟩⟩

theorem assignFold_inv (myCreeps : List Creep) (allTowers : List Tower)
    (containers : List Container) :
    ∀ (l : List Tower), (∀ tw ∈ l, tw ∈ allTowers) →
    ∀ st, ChargerInv myCreeps allTowers st →
    ChargerInv myCreeps allTowers (l.foldl (assignStep myCreeps containers) st) := by
  intro l
  induction l with
  | nil => intro _ st h; exact h
  | cons tw tws ih =>
      intro hl st h
      exact ih (fun t ht => hl t (List.mem_cons_of_mem tw ht)) _
        (assignStep_inv myCreeps allTowers containers tw (hl tw (List.mem_cons_self _ _)) st h)

theorem deathStep_none_mono (st : ChargerTables) (id t c : Nat)
    (h1 : st.tca.lookup t = none) (h2 : st.ctt.lookup c = none) :
    (deathStep st id).tca.lookup t = none ∧ (deathStep st id).ctt.lookup c = none := by
  unfold deathStep
  cases hct : st.ctt.lookup id with
  | none => exact ⟨h1, lookup_eraseKey_none h2⟩
  | some tid => exact ⟨lookup_eraseKey_none h1, lookup_eraseKey_none h2⟩

theorem deathFold_none_mono (l : List Nat) :
    ∀ (st : ChargerTables) (t c : Nat), st.tca.lookup t = none → st.ctt.lookup c = none →
    (l.foldl deathStep st).tca.lookup t = none ∧ (l.foldl deathStep st).ctt.lookup c = none := by
  induction l with
  | nil => intro st t c h1 h2; exact ⟨h1, h2⟩
  | cons d ds ih =>
      intro st t c h1 h2
      simp only [List.foldl_cons]
      have := deathStep_none_mono st d t c h1 h2
      exact ih _ t c this.1 this.2

theorem deathFold_releases (allTowers : List Tower) (l : List Nat) :
    ∀ (st : ChargerTables) (c t : Nat), ChargerPre allTowers st →
    st.ctt.lookup c = some t → c ∈ l →
    (l.foldl deathStep st).tca.lookup t = none ∧
    (l.foldl deathStep st).ctt.lookup c = none := by
  induction l with
  | nil => intro st c t _ _ hc; simp at hc
  | cons d ds ih =>
      intro st c t hpre hb hc
      simp only [List.foldl_cons]
      by_cases hdc : d = c
      · subst hdc
        have hstep : (deathStep st d).tca.lookup t = none ∧
            (deathStep st d).ctt.lookup d = none := by
          unfold deathStep
          rw [hb]
          exact ⟨lookup_eraseKey_self _ t, lookup_eraseKey_self _ d⟩
        exact deathFold_none_mono ds _ t d hstep.1 hstep.2
      · have hb2 : (deathStep st d).ctt.lookup c = some t := by
          unfold deathStep
          simp only []
          rw [lookup_eraseKey_ne (fun he => hdc he.symm)]
          exact hb
        refine ih _ c t (deathStep_pre allTowers st d hpre) hb2 ?_
        rcases List.mem_cons.mp hc with h | h
        · exact absurd h.symm hdc
        · exact h

/-- C5: after the per-tick cleanup passes (`refreshWorldState` death
detection, then the release and assignment loops of `assignTowerChargers`),
the charger tables form a partial bijection — keys unique on both sides, the
maps mutually inverse, every binding's charger and tower alive — starting
from any tick-reachable table state (`ChargerPre`); and killing a bound
charger releases its tower's binding already in the death-detection pass,
before the next assignment pass runs. -/
theorem charger_tables_partial_bijection (myCreeps : List Creep)
    (allTowers myTowers : List Tower) (containers : List Container)
    (prevIds : List Nat) (st : ChargerTables)
    (hmt : ∀ tw ∈ myTowers, tw ∈ allTowers)
    (hpre : ChargerPre allTowers st) :
    ChargerInv myCreeps allTowers
      (assignTowerChargers myCreeps allTowers myTowers containers
        (deathCleanup prevIds (myCreeps.map Creep.id) st)) ∧
    (∀ c t : Nat, st.ctt.lookup c = some t → c ∈ prevIds →
      (myCreeps.map Creep.id).contains c = false →
      (deathCleanup prevIds (myCreeps.map Creep.id) st).tca.lookup t = none ∧
      (deathCleanup prevIds (myCreeps.map Creep.id) st).ctt.lookup c = none) := by
  constructor
  · unfold assignTowerChargers
    exact assignFold_inv myCreeps allTowers containers myTowers hmt _
      (releasePass_inv myCreeps allTowers _
        (deathCleanup_pre allTowers prevIds (myCreeps.map Creep.id) st hpre))
  · intro c t hb hcp hdead
    unfold deathCleanup
    refine deathFold_releases allTowers _ st c t hpre hb ?_
    rw [List.mem_filter]
    refine ⟨hcp, ?_⟩
    rw [hdead]
    rfl

/-- C5 witness: a bound charger (id 3, tower 7) that died between ticks is
scrubbed by the same tick's cleanup, and the resulting tables satisfy the
partial-bijection invariant. -/
theorem charger_tables_partial_bijection_witness :
    ChargerInv [] [exBoundTower]
      (assignTowerChargers [] [exBoundTower] [] []
        (deathCleanup [3] (([] : List Creep).map Creep.id) exDeadTables)) ∧
    ((deathCleanup [3] (([] : List Creep).map Creep.id) exDeadTables).tca.lookup 7 = none ∧
      (deathCleanup [3] (([] : List Creep).map Creep.id) exDeadTables).ctt.lookup 3 = none) := by
  have h := charger_tables_partial_bijection [] [exBoundTower] [] [] [3] exDeadTables
    (by simp)
    (by
      unfold ChargerPre NodupKeys
      exact ⟨by decide, by decide, by decide, by decide⟩)
  exact ⟨h.1, h.2 3 7 (by decide) (by decide) (by decide)⟩

end CtfBot
